import Mathlib

/-!
# andreevym/smsc : request validation and credential filling

A shallow embedding of `message.go` (the `Message` record, `Validate` and its
helpers, `JSON`) and of `client.go` (`Client.SendMessage`, `ParseErrorCode`).

Conventions of the embedding

* A Go `string` is a Lean `String`; `len(s)` is the number of bytes of its
  UTF-8 encoding (`goLen`), not its number of characters.  Go strings that are
  not valid UTF-8 are outside the embedding.
* A Go `int` is an `Int`.  The validated code only compares integers with
  constants, so no overflow can occur.
* A Go `float64` is a `Float64`: a rational (every finite double is one), the
  two infinities, or NaN.  Negative zero compares equal to zero in Go and is
  the rational `0` here.
* A Go `error` result is `Except String Unit`: `.ok ()` is `nil`, and
  `.error msg` is an error whose `Error()` text is `msg`.  `fmt.Errorf` with
  `%w` or `%v` concatenates the texts.
* `time.Parse` and `regexp` belong to the Go standard library.  `time.Parse`
  is embedded in the namespace `Smsc.GoTime` after `time/format.go`; the two
  regular expressions are written as Mathlib `RegularExpression Char` values
  and matched with `RegularExpression.rmatch`.
* `json.Marshal` is embedded for the record `Message`, but for the decimal form
  of a `float64`, which is a parameter.  The exchange with the gateway and
  `json.Unmarshal` are parameters of `SendMessage` (the record `Env`).
* `SendMessage` takes a pointer to the message and writes through it: the
  embedding returns, with the two results, the message as the call leaves it.
-/

set_option linter.dupNamespace false

deriving instance DecidableEq for Except

namespace Smsc

/-! ## Data model (`message.go`, `client.go`) -/

/-- A Go `float64` value. -/
inductive Float64 where
  | finite (q : ℚ)
  | posInf
  | negInf
  | nan
  deriving DecidableEq

/-- The record `Message` of `message.go`, field for field, with the Go zero
value as the default of every field. -/
structure Message where
  Login : String := ""
  Password : String := ""
  Phones : String := ""
  Message : String := ""
  List : String := ""
  ID : String := ""
  Sender : String := ""
  Translit : Int := 0
  TinyURL : Int := 0
  Time : String := ""
  TZ : Int := 0
  Period : Float64 := Float64.finite 0
  Freq : Int := 0
  Flash : Int := 0
  Bin : Int := 0
  Push : Int := 0
  HLR : Int := 0
  Ping : Int := 0
  MMS : Int := 0
  Mail : Int := 0
  Soc : Int := 0
  Viber : Int := 0
  WhatsApp : Int := 0
  Bot : String := ""
  SMSReq : Int := 0
  FileURL : String := ""
  Call : Int := 0
  Voice : String := ""
  Param : String := ""
  Subject : String := ""
  Charset : String := ""
  Cost : Int := 0
  Format : Int := 0
  Valid : String := ""
  MaxSMS : Int := 0
  ImgCode : String := ""
  UserIP : String := ""
  Err : Int := 0
  Op : Int := 0
  PP : String := ""

/-- The constructor `NewMessage` returns the zero `Message`. -/
def NewMessage : Message := {}

/-- The record `Client` of `client.go`. -/
structure Client where
  login : String
  password : String
  sender : String

/-- The constructor `NewClient` stores its three arguments. -/
def NewClient (login password sender : String) : Client :=
  { login := login, password := password, sender := sender }

/-- Go's `len` on a string: the number of bytes. -/
def goLen (s : String) : Nat := s.utf8ByteSize

/-- An ASCII digit, as in Go's `isDigit` and as `\d` of Go's `regexp`. -/
def isDigitChar (c : Char) : Bool := decide ('0' ≤ c) && decide (c ≤ '9')

/-! ## Go's `time.Parse` (`time/format.go`)

The program calls `time.Parse` with six constant layouts and only asks whether
it failed, and for the hour and minute of the result.  The embedding follows
`format.go` function by function on lists of characters.  Every comparison the
parser makes is against an ASCII character and a character outside ASCII is
never a digit, a sign or a separator, so reading characters instead of bytes
accepts the same strings.

The text followed is that of Go 1.17 and later, where a comma as well as a
period may start fractional seconds; the strings the theorems below evaluate
contain neither.

Left out, because no layout of the program contains the characters that start
them: month and weekday names (`J`, `M`), time-zone names and `Z` zones,
`PM`/`pm`, and the `_` padded fields.  The numeric zone chunks after `-`, the
four-digit year, the day of the year and the fractional-second chunks are
recognised by `nextStdChunk` but not interpreted: a layout that contains one
gives `ParseResult.outOfModel`, which `modelled_ok` shows is never the case for
the layouts of the program. -/

namespace GoTime

/-- The chunk codes of `format.go` that `nextStdChunk` can return here;
`stdNone` is the code `0` of a layout with no chunk left. -/
inductive Std where
  | stdNone
  | stdZeroMonth
  | stdZeroDay
  | stdZeroHour12
  | stdZeroMinute
  | stdZeroSecond
  | stdYear
  | stdZeroYearDay
  | stdHour
  | stdNumMonth
  | stdLongYear
  | stdDay
  | stdHour12
  | stdMinute
  | stdSecond
  | stdNumSecondsTz
  | stdNumColonSecondsTZ
  | stdNumTZ
  | stdNumColonTZ
  | stdNumShortTZ
  | stdFracSecond0
  | stdFracSecond9
  deriving DecidableEq, Repr

open Std

/-- The table `std0x`, indexed by the digit after a `0`. -/
def std0x (d : Char) : Std :=
  if d = '1' then stdZeroMonth
  else if d = '2' then stdZeroDay
  else if d = '3' then stdZeroHour12
  else if d = '4' then stdZeroMinute
  else if d = '5' then stdZeroSecond
  else stdYear

/-- Go's `isDigit(s, i)`. -/
def isDigit (s : List Char) (i : Nat) : Bool :=
  match s.get? i with
  | some c => isDigitChar c
  | none => false

/-- One position of the scan of `nextStdChunk`: `c` is `layout[i]`, `rest` is
`layout[i+1:]`.  Gives the chunk that starts at `c` and the layout after it,
or `none` when `c` starts no chunk. -/
def chunkAt (c : Char) (rest : List Char) : Option (Std × List Char) :=
  if c = '0' then
    match rest with
    | d :: tl =>
      if decide ('1' ≤ d) && decide (d ≤ '6') then some (std0x d, tl)
      else if ['0', '2'].isPrefixOf rest then some (stdZeroYearDay, rest.drop 2)
      else none
    | [] => none
  else if c = '1' then
    match rest with
    | '5' :: tl => some (stdHour, tl)
    | _ => some (stdNumMonth, rest)
  else if c = '2' then
    if ['0', '0', '6'].isPrefixOf rest then some (stdLongYear, rest.drop 3)
    else some (stdDay, rest)
  else if c = '3' then some (stdHour12, rest)
  else if c = '4' then some (stdMinute, rest)
  else if c = '5' then some (stdSecond, rest)
  else if c = '-' then
    if "070000".toList.isPrefixOf rest then some (stdNumSecondsTz, rest.drop 6)
    else if "07:00:00".toList.isPrefixOf rest then some (stdNumColonSecondsTZ, rest.drop 8)
    else if "0700".toList.isPrefixOf rest then some (stdNumTZ, rest.drop 4)
    else if "07:00".toList.isPrefixOf rest then some (stdNumColonTZ, rest.drop 5)
    else if "07".toList.isPrefixOf rest then some (stdNumShortTZ, rest.drop 2)
    else none
  else if c = '.' ∨ c = ',' then
    match rest with
    | ch :: _ =>
      if ch = '0' ∨ ch = '9' then
        let after := rest.dropWhile (fun x => x = ch)
        if !isDigit after 0 then
          some (if ch = '9' then stdFracSecond9 else stdFracSecond0, after)
        else none
      else none
    | [] => none
  else none

/-- Go's `nextStdChunk`: the text before the first chunk of the layout, the
chunk, and the layout after it. -/
def nextStdChunk : List Char → List Char × Std × List Char
  | [] => ([], stdNone, [])
  | c :: rest =>
    match chunkAt c rest with
    | some (std, suffix) => ([], std, suffix)
    | none =>
      match nextStdChunk rest with
      | (_, stdNone, _) => (c :: rest, stdNone, [])
      | (pfx, std, suffix) => (c :: pfx, std, suffix)

/-- Go's `cutspace`. -/
def cutspace (s : List Char) : List Char := s.dropWhile (fun c => c = ' ')

/-- Go's `skip`, with the loop counted down by `fuel`; `none` is `errBad`.
Every turn of the loop shortens the text to skip, so its length is fuel
enough (`skip`). -/
def skipLoop : Nat → List Char → List Char → Option (List Char)
  | _, value, [] => some value
  | 0, _, _ :: _ => none
  | fuel + 1, value, p :: ps =>
    if p = ' ' then
      match value with
      | v :: vs =>
        if v ≠ ' ' then none
        else skipLoop fuel (cutspace (v :: vs)) (cutspace (p :: ps))
      | [] => skipLoop fuel (cutspace []) (cutspace (p :: ps))
    else
      match value with
      | v :: vs => if v ≠ p then none else skipLoop fuel vs ps
      | [] => none

/-- Go's `skip(value, prefix)`. -/
def skip (value pfx : List Char) : Option (List Char) :=
  skipLoop pfx.length value pfx

/-- The value `int(c - '0')` of a digit. -/
def digitVal (c : Char) : Int := (c.toNat : Int) - 48

/-- Go's `getnum`: one or two digits (exactly two when `fixed`). -/
def getnum (s : List Char) (fixed : Bool) : Option (Int × List Char) :=
  if !isDigit s 0 then none
  else if !isDigit s 1 then
    if fixed then none
    else
      match s with
      | a :: rest => some (digitVal a, rest)
      | [] => none
  else
    match s with
    | a :: b :: rest => some (digitVal a * 10 + digitVal b, rest)
    | _ => none

/-- Go's `leadingInt`: the leading decimal digits as an unsigned number and
the rest, `none` on overflow past `1 << 63`. -/
def leadingInt : List Char → Nat → Option (Nat × List Char)
  | [], x => some (x, [])
  | c :: rest, x =>
    if !isDigitChar c then some (x, c :: rest)
    else if x > 2 ^ 63 / 10 then none
    else
      let y := x * 10 + (c.toNat - 48)
      if y > 2 ^ 63 then none else leadingInt rest y

/-- Go's `atoi`: an optional sign, then digits to the end. -/
def atoi (s : List Char) : Option Int :=
  let neg := match s with
    | c :: _ => decide (c = '-')
    | [] => false
  let body := match s with
    | c :: rest => if c = '-' ∨ c = '+' then rest else s
    | [] => s
  match leadingInt body 0 with
  | some (q, []) => some (if neg then -(q : Int) else (q : Int))
  | _ => none

/-- Go's `isLeap`. -/
def isLeap (year : Int) : Bool :=
  decide (year % 4 = 0) && (decide (year % 100 ≠ 0) || decide (year % 400 = 0))

/-- Go's `daysIn`. -/
def daysIn (month year : Int) : Int :=
  if month = 2 then (if isLeap year then 29 else 28)
  else if month = 4 ∨ month = 6 ∨ month = 9 ∨ month = 11 then 30
  else 31

/-- The fields `parse` collects, with their initial values. -/
structure Fields where
  year : Int := 0
  month : Int := -1
  day : Int := -1
  hour : Int := 0
  min : Int := 0
  sec : Int := 0
  nsec : Int := 0
  deriving DecidableEq, Repr

/-- Outcome of `time.Parse`: the parsed fields, a Go parse error, or a layout
outside the embedding (an uninterpreted chunk, or the loop counter used up). -/
inductive ParseResult where
  | ok (t : Fields)
  | errBad
  | outOfModel
  deriving DecidableEq, Repr

/-- Outcome of one chunk. -/
inductive StepResult where
  | next (value : List Char) (t : Fields)
  | errBad
  | outOfModel

/-- Go's `parseNanoseconds(value, nbytes)` for a `value` whose first character
is a comma or period followed by `nbytes - 1` digits: it cannot fail. -/
def parseNanoseconds (value : List Char) (nbytes : Nat) : Int :=
  let nb := if nbytes > 10 then 10 else nbytes
  match atoi ((value.take nb).drop 1) with
  | some ns => ns * 10 ^ (10 - nb)
  | none => 0

/-- The body of the `switch std` of `parse` for one chunk; `layout` is the
layout after the chunk. -/
def parseStd (std : Std) (layout value : List Char) (t : Fields) : StepResult :=
  match std with
  | stdYear =>
    if value.length < 2 then .errBad
    else
      match atoi (value.take 2) with
      | none => .errBad
      | some y => .next (value.drop 2) { t with year := if y ≥ 69 then y + 1900 else y + 2000 }
  | stdNumMonth | stdZeroMonth =>
    match getnum value (decide (std = stdZeroMonth)) with
    | none => .errBad
    | some (month, rest) =>
      if month ≤ 0 ∨ 12 < month then .errBad else .next rest { t with month := month }
  | stdDay | stdZeroDay =>
    match getnum value (decide (std = stdZeroDay)) with
    | none => .errBad
    | some (day, rest) => .next rest { t with day := day }
  | stdHour =>
    match getnum value false with
    | none => .errBad
    | some (hour, rest) =>
      if hour < 0 ∨ 24 ≤ hour then .errBad else .next rest { t with hour := hour }
  | stdHour12 | stdZeroHour12 =>
    match getnum value (decide (std = stdZeroHour12)) with
    | none => .errBad
    | some (hour, rest) =>
      if hour < 0 ∨ 12 < hour then .errBad else .next rest { t with hour := hour }
  | stdMinute | stdZeroMinute =>
    match getnum value (decide (std = stdZeroMinute)) with
    | none => .errBad
    | some (min, rest) =>
      if min < 0 ∨ 60 ≤ min then .errBad else .next rest { t with min := min }
  | stdSecond | stdZeroSecond =>
    match getnum value (decide (std = stdZeroSecond)) with
    | none => .errBad
    | some (sec, rest) =>
      if sec < 0 ∨ 60 ≤ sec then .errBad
      else
        match rest with
        | c :: _ :: _ =>
          if (c = '.' ∨ c = ',') ∧ isDigit rest 1 = true then
            match (nextStdChunk layout).2.1 with
            | stdFracSecond0 | stdFracSecond9 => .next rest { t with sec := sec }
            | _ =>
              let n := 2 + ((rest.drop 2).takeWhile isDigitChar).length
              .next (rest.drop n) { t with sec := sec, nsec := parseNanoseconds rest n }
          else .next rest { t with sec := sec }
        | _ => .next rest { t with sec := sec }
  | _ => .outOfModel

/-- The end of `parse`: default month and day, and the check of the day
against the length of the month. -/
def finish (t : Fields) : ParseResult :=
  let month := if t.month < 0 then 1 else t.month
  let day := if t.day < 0 then 1 else t.day
  if day < 1 ∨ day > daysIn month t.year then .errBad
  else .ok { t with month := month, day := day }

/-- The loop of `parse`, one chunk of the layout per turn, counted down by
`fuel`. -/
def parseLoop : Nat → List Char → List Char → Fields → ParseResult
  | 0, _, _, _ => .outOfModel
  | fuel + 1, layout, value, t =>
    match nextStdChunk layout with
    | (pfx, std, suffix) =>
      match skip value pfx with
      | none => .errBad
      | some value1 =>
        if std = stdNone then
          (if value1.length ≠ 0 then .errBad else finish t)
        else
          match parseStd std suffix value1 t with
          | .errBad => .errBad
          | .outOfModel => .outOfModel
          | .next value2 t2 => parseLoop fuel suffix value2 t2

/-- Go's `time.Parse(layout, value)`.  Every turn of the loop but the last
removes a chunk from the layout, so one more than its length is fuel enough. -/
def Parse (layout value : String) : ParseResult :=
  parseLoop (layout.length + 1) layout.toList value.toList {}

/-- The method `Time.Hour`.  `parse` hands fields that are already in range to
`Date`, which leaves such fields as they are. -/
def Fields.Hour (t : Fields) : Int := t.hour

/-- The method `Time.Minute`. -/
def Fields.Minute (t : Fields) : Int := t.min

end GoTime

/-! ## The regular expressions of `message.go` -/

open RegularExpression in
/-- The class `\d` of Go's `regexp`: the ten ASCII digits. -/
def reDigit : RegularExpression Char :=
  char '0' + char '1' + char '2' + char '3' + char '4' + char '5' + char '6' + char '7'
    + char '8' + char '9'

open RegularExpression in
/-- The pattern `^\d{1,2}:\d{2}$` of `Validate`.  The anchors make
`MatchString` a match of the whole string, which is what `rmatch` decides. -/
def validRegex : RegularExpression Char :=
  (reDigit * (1 + reDigit)) * char ':' * (reDigit * reDigit)

open RegularExpression in
/-- The pattern `\d+`. -/
def reNumber : RegularExpression Char := reDigit * star reDigit

open RegularExpression in
/-- The pattern `^\d+,\d+,\d+$` of `isValidParam`. -/
def validParamRegex : RegularExpression Char :=
  reNumber * char ',' * reNumber * char ',' * reNumber

/-- Go's `Regexp.MatchString` for a pattern anchored at both ends. -/
def MatchString (re : RegularExpression Char) (s : String) : Bool := re.rmatch s.toList

/-! ## Error texts -/

/-- Text of the first error of `validateRequiredFields`. -/
def errLoginPassword : String := "логин и пароль являются обязательными параметрами"

/-- Text of the second error of `validateRequiredFields`. -/
def errPhonesOrList : String :=
  "номера телефонов (phones) или список сообщений (list) являются обязательными параметрами"

/-- Text of the third error of `validateRequiredFields`. -/
def errMessageOrList : String :=
  "текст сообщения (mes) или список сообщений (list) являются обязательными параметрами"

/-- Text of the fourth error of `validateRequiredFields`. -/
def errMessageTooLong : String := "максимальная длина текста сообщения - 1000 символов"

/-- Text of the error of `validateTime`. -/
def errTimeFormat : String := "неверный формат времени"

/-- Text of the error of the first check of `valid` in `Validate`. -/
def errValidPattern : String :=
  "неверный формат срока жизни сообщения, используйте формат чч:мм"

/-- Text of the error of `validateValid` when `time.Parse` fails. -/
def errValidFormat : String := "неверный формат срока \x27жизни\x27 сообщения"

/-- Text of the error of `validateValid` when the hour or minute is out of range. -/
def errValidValue : String := "неверное значение срока \x27жизни\x27 сообщения"

/-- The text `fmt.Errorf("message validation: %w", err)` gives. -/
def wrapRequired (e : String) : String := "message validation: " ++ e

/-- The text `fmt.Errorf("неверное время отправки сообщения: %v", err)` gives. -/
def wrapTime (e : String) : String := "неверное время отправки сообщения: " ++ e

/-- The text `fmt.Errorf("неверное значение срока 'жизни' сообщения: %v", err)` gives. -/
def wrapValid (e : String) : String := "неверное значение срока \x27жизни\x27 сообщения: " ++ e

/-! ## The validator (`message.go`) -/

/-- The function `validateRequiredFields`. -/
def validateRequiredFields (m : Message) : Except String Unit :=
  if m.Login = "" ∨ m.Password = "" then .error errLoginPassword
  else if m.Phones = "" ∧ m.List = "" then .error errPhonesOrList
  else if m.List = "" ∧ m.Message = "" then .error errMessageOrList
  else if m.Message ≠ "" ∧ goLen m.Message > 1000 then .error errMessageTooLong
  else .ok ()

/-- The slice `timeFormats` of `validateTime`. -/
def timeFormats : List String :=
  ["0201061504", "02.01.06 15:04", "15-17", "0ts", "+5"]

/-- Whether `time.Parse` returned a nil error. -/
def parseOk (layout value : String) : Bool :=
  match GoTime.Parse layout value with
  | .ok _ => true
  | _ => false

/-- The function `validateTime`: the first layout that parses the string ends
the loop with `nil`. -/
def validateTime (timeStr : String) : Except String Unit :=
  if timeFormats.any (fun format => parseOk format timeStr) then .ok ()
  else .error errTimeFormat

/-- The function `isValidVoice`. -/
def isValidVoice (voice : String) : Bool :=
  decide (voice ∈ ["m", "m2", "m3", "m4", "w", "w2", "w3", "w4"])

/-- The function `isValidParam`. -/
def isValidParam (param : String) : Bool := MatchString validParamRegex param

/-- The function `validateValid`. -/
def validateValid (valid : String) : Except String Unit :=
  if valid = "" then .ok ()
  else if valid = "0" then .ok ()
  else
    match GoTime.Parse "15:04" valid with
    | .ok validTime =>
      if validTime.Hour < 1 ∨ validTime.Hour > 24 ∨ validTime.Minute < 0
          ∨ validTime.Minute > 59 then .error errValidValue
      else .ok ()
    | _ => .error errValidFormat

/-- The double `0.1`: the constant of the check of `Period`, rounded to
`float64` as Go does. -/
def tenth : ℚ := 3602879701896397 / 36028797018963968

/-- The condition `m.Period != 0 && (m.Period < 0.1 || m.Period > 720)`.  NaN
differs from zero and is neither below nor above anything. -/
def periodOutOfRange : Float64 → Bool
  | .finite q => decide (q ≠ 0) && (decide (q < tenth) || decide (q > 720))
  | .posInf => true
  | .negInf => true
  | .nan => false

/-- The method `Message.Validate`, check by check in the order of the source:
the required fields, the send time, `cost`, `fmt`, the pattern of `valid`,
`maxsms`, the send time once more, the ranges of the flags, and last
`validateValid`. -/
def Validate (m : Message) : Except String Unit :=
  match validateRequiredFields m with
  | .error e => .error (wrapRequired e)
  | .ok _ =>
    match (if m.Time ≠ "" then validateTime m.Time else .ok ()) with
    | .error e => .error (wrapTime e)
    | .ok _ =>
      if m.Cost ≠ 0 ∧ (m.Cost < 0 ∨ m.Cost > 3) then
        .error "неверное значение стоимости"
      else if m.Format ≠ 0 ∧ (m.Format < 0 ∨ m.Format > 3) then
        .error "неверное значение формата ответа сервера"
      else if m.Valid ≠ "" ∧ MatchString validRegex m.Valid = false then
        .error errValidPattern
      else if m.MaxSMS ≠ 0 ∧ (m.MaxSMS ≠ 0 ∧ m.MaxSMS < 0) then
        .error "максимальное количество SMS должно быть неотрицательным"
      else
        match (if m.Time ≠ "" then validateTime m.Time else .ok ()) with
        | .error e => .error e
        | .ok _ =>
          if m.TZ ≠ 0 ∧ (m.TZ < -12 ∨ m.TZ > 12) then
            .error "неверное значение часового пояса"
          else if periodOutOfRange m.Period = true then
            .error "промежуток времени должен быть в диапазоне от 0.1 до 720 часов"
          else if m.Freq ≠ 0 ∧ (m.Freq < 1 ∨ m.Freq > 1440) then
            .error "интервал отправки должен быть в промежутке от 1 до 1440 минут"
          else if m.Flash ≠ 0 ∧ (m.Flash < 0 ∨ m.Flash > 1) then
            .error "неверное значение признака Flash сообщения"
          else if m.Bin ≠ 0 ∧ (m.Bin < 0 ∨ m.Bin > 2) then
            .error "неверное значение признака бинарного сообщения"
          else if m.Push ≠ 0 ∧ (m.Push < 0 ∨ m.Push > 1) then
            .error "неверное значение признака WAP-push сообщения"
          else if m.HLR ≠ 0 ∧ (m.HLR < 0 ∨ m.HLR > 1) then
            .error "неверное значение признака HLR-запроса"
          else if m.Ping ≠ 0 ∧ (m.Ping < 0 ∨ m.Ping > 1) then
            .error "неверное значение признака Ping-SMS"
          else if m.MMS < 0 ∨ m.MMS > 1 then
            .error "неверное значение признака MMS-сообщения"
          else if m.Mail < 0 ∨ m.Mail > 1 then
            .error "неверное значение признака e-mail сообщения"
          else if m.Soc < 0 ∨ m.Soc > 1 then
            .error "неверное значение признака soc-сообщения"
          else if m.Viber < 0 ∨ m.Viber > 1 then
            .error "неверное значение признака viber-сообщения"
          else if m.WhatsApp < 0 ∨ m.WhatsApp > 1 then
            .error "неверное значение признака whatsapp-сообщения"
          else if m.SMSReq ≠ 0 ∧ (m.SMSReq < 10 ∨ m.SMSReq > 999) then
            .error "неверное значение для параметра smsreq, должно быть в диапазоне от 10 до 999"
          else if m.FileURL ≠ "" ∧ goLen m.FileURL < 101 then
            .error "неверный http-адрес файла, минимальный размер файла должен быть 101 байт"
          else if m.Call < 0 ∨ m.Call > 1 then
            .error "неверное значение признака голосового сообщения"
          else if m.Voice ≠ "" ∧ isValidVoice m.Voice = false then
            .error "неверное значение голоса"
          else if m.Param ≠ "" ∧ isValidParam m.Param = false then
            .error "неверное значение параметров голосового сообщения"
          else if m.Valid ≠ "" then
            match validateValid m.Valid with
            | .error e => .error (wrapValid e)
            | .ok _ => .ok ()
          else .ok ()

/-! ## The credential step of `Client.SendMessage` (`client.go`) -/

/-- Lines 79 to 82 of `client.go`: a message with neither login nor password
takes both from the client. -/
def fillCredentials (c : Client) (message : Message) : Message :=
  if message.Login = "" ∧ message.Password = "" then
    { message with Login := c.login, Password := c.password }
  else message


/-! ## The response and the error codes (`client.go`) -/

/-- One element of `Response.Phones`. -/
structure PhoneStatus where
  Phone : String := ""
  Mccmnc : String := ""
  Cost : String := ""
  Status : String := ""
  Error : String := ""
  deriving DecidableEq

/-- The record `Response` of `client.go`; its default is the Go zero value
`Response{}`. -/
structure Response where
  ID : Int := 0
  Cnt : Int := 0
  Cost : String := ""
  Balance : String := ""
  Error : String := ""
  ErrorCode : Int := 0
  Phones : List PhoneStatus := []
  deriving DecidableEq

/-- The map `errorDescriptions`. -/
def errorDescriptions : List (Int × String) :=
  [(1, "Ошибка в параметрах"),
   (2, "Неверный логин или пароль"),
   (3, "Недостаточно средств на счете"),
   (4, "IP-адрес временно заблокирован"),
   (5, "Неверный формат даты"),
   (6, "Сообщение запрещено"),
   (7, "Неверный формат номера телефона"),
   (8, "Сообщение не может быть доставлено"),
   (9, "Дублирование запроса")]

/-- The function `ParseErrorCode`: the description of the code, and the empty
string (the zero value of a map lookup) for a code that is not in the map. -/
def ParseErrorCode (errorCode : Int) : String :=
  match errorDescriptions.lookup errorCode with
  | some description => description
  | none => ""

/-! ## `Message.JSON` (`message.go`) and Go's `json.Marshal`

`json.Marshal` writes the fields of the record in their order, under the key
of their tag, leaving out a field tagged `omitempty` whose value is empty
(`""` or `0`).  Strings are written as `encoding/json` does with HTML escaping
on (the text followed is that of Go 1.22 and later, where backspace and form
feed are written `\b` and `\f`), integers in decimal.  The shortest decimal
form of a finite non-zero `float64` is not embedded: it is the parameter
`formatFloat`.  A `float64` that is NaN or infinite makes `json.Marshal` fail. -/

/-- A field value as `json.Marshal` sees it. -/
inductive JsonValue where
  | str (s : String)
  | int (i : Int)
  | float (f : Float64)

/-- The fields of `Message` in the order of the record: key of the tag, whether
the tag has `omitempty`, value. -/
def jsonFields (m : Message) : List (String × Bool × JsonValue) :=
  [("login", false, .str m.Login),
   ("psw", false, .str m.Password),
   ("phones", true, .str m.Phones),
   ("mes", true, .str m.Message),
   ("list", true, .str m.List),
   ("id", true, .str m.ID),
   ("sender", true, .str m.Sender),
   ("translit", true, .int m.Translit),
   ("tinyurl", true, .int m.TinyURL),
   ("time", true, .str m.Time),
   ("tz", true, .int m.TZ),
   ("period", true, .float m.Period),
   ("freq", true, .int m.Freq),
   ("flash", true, .int m.Flash),
   ("bin", true, .int m.Bin),
   ("push", true, .int m.Push),
   ("hlr", true, .int m.HLR),
   ("ping", true, .int m.Ping),
   ("mms", true, .int m.MMS),
   ("mail", true, .int m.Mail),
   ("soc", true, .int m.Soc),
   ("viber", true, .int m.Viber),
   ("whatsapp", true, .int m.WhatsApp),
   ("bot", true, .str m.Bot),
   ("smsreq", true, .int m.SMSReq),
   ("fileurl", true, .str m.FileURL),
   ("call", true, .int m.Call),
   ("voice", true, .str m.Voice),
   ("param", true, .str m.Param),
   ("subj", true, .str m.Subject),
   ("charset", true, .str m.Charset),
   ("cost", true, .int m.Cost),
   ("fmt", true, .int m.Format),
   ("valid", true, .str m.Valid),
   ("maxsms", true, .int m.MaxSMS),
   ("imgcode", true, .str m.ImgCode),
   ("userip", true, .str m.UserIP),
   ("err", true, .int m.Err),
   ("op", true, .int m.Op),
   ("pp", true, .str m.PP)]

/-- Go's `isEmptyValue` on the three kinds of field of `Message`. -/
def isEmptyValue : JsonValue → Bool
  | .str s => decide (s = "")
  | .int i => decide (i = 0)
  | .float f => decide (f = Float64.finite 0)

/-- The fields `json.Marshal` writes: all but the empty ones tagged
`omitempty`. -/
def jsonMembers (m : Message) : List (String × JsonValue) :=
  ((jsonFields m).filter (fun f => !(f.2.1 && isEmptyValue f.2.2))).map
    (fun f => (f.1, f.2.2))

/-- The keys of the JSON object `json.Marshal` writes for the message. -/
def jsonKeys (m : Message) : List String := (jsonMembers m).map Prod.fst

/-- The digit of `hex` at an index below 16. -/
def hexDigit (n : Nat) : Char := "0123456789abcdef".toList.getD n '0'

/-- The table `htmlSafeSet` on an ASCII character: everything from the space
on except the double quote, `&`, `<`, `>` and the backslash. -/
def htmlSafe (c : Char) : Bool :=
  decide (0x20 ≤ c.toNat) && decide (c ≠ '\"') && decide (c ≠ '&') && decide (c ≠ '<')
    && decide (c ≠ '>') && decide (c ≠ '\\')

/-- What `appendString` of `encoding/json` writes for one character. -/
def escapeChar (c : Char) : List Char :=
  if c.toNat < 0x80 then
    if htmlSafe c then [c]
    else if c = '\\' ∨ c = '\"' then ['\\', c]
    else if c.toNat = 8 then ['\\', 'b']
    else if c.toNat = 12 then ['\\', 'f']
    else if c = '\n' then ['\\', 'n']
    else if c = '\r' then ['\\', 'r']
    else if c = '\t' then ['\\', 't']
    else ['\\', 'u', '0', '0', hexDigit (c.toNat / 16), hexDigit (c.toNat % 16)]
  else if c.toNat = 0x2028 ∨ c.toNat = 0x2029 then
    ['\\', 'u', '2', '0', '2', hexDigit (c.toNat % 16)]
  else [c]

/-- Go's `appendString`: the string between double quotes, escaped. -/
def appendString (s : String) : String :=
  "\"" ++ String.mk (s.toList.flatMap escapeChar) ++ "\""

/-- The text `json.Marshal` writes for a value, or the text of its error. -/
def encodeValue (formatFloat : ℚ → String) : JsonValue → Except String String
  | .str s => .ok (appendString s)
  | .int i => .ok (toString i)
  | .float (.finite q) => .ok (formatFloat q)
  | .float .posInf => .error "json: unsupported value: +Inf"
  | .float .negInf => .error "json: unsupported value: -Inf"
  | .float .nan => .error "json: unsupported value: NaN"

/-- The members `"key":value` of the object, in order; the first value that
cannot be written ends the encoding with its error. -/
def encodeMembers (formatFloat : ℚ → String) :
    List (String × JsonValue) → Except String (List String)
  | [] => .ok []
  | (key, v) :: rest =>
    match encodeValue formatFloat v with
    | .error e => .error e
    | .ok text =>
      match encodeMembers formatFloat rest with
      | .error e => .error e
      | .ok texts => .ok ((appendString key ++ ":" ++ text) :: texts)

/-- The members separated by commas. -/
def joinMembers : List String → String
  | [] => ""
  | [a] => a
  | a :: b :: rest => a ++ "," ++ joinMembers (b :: rest)

/-- The method `Message.JSON`: the text of `json.Marshal(m)`, or its error
(with which Go returns the empty string). -/
def JSON (formatFloat : ℚ → String) (m : Message) : Except String String :=
  match encodeMembers formatFloat (jsonMembers m) with
  | .error e => .error e
  | .ok texts => .ok ("\x7b" ++ joinMembers texts ++ "\x7d")

/-! ## `Client.SendMessage` (`client.go`) -/

/-- What `SendMessage` takes from outside the program.

* `formatFloat`: the decimal form `json.Marshal` writes for a finite non-zero
  `float64`.
* `roundTrip`: the exchange with the gateway, from the body of the request to
  the status code and the body read from the reply, or to the text of the
  error of `client.Do` or `io.ReadAll`.  (`http.NewRequest` cannot fail on the
  constant method and address of the program.)
* `unmarshal`: `json.Unmarshal` into a `Response`, or the text of its error. -/
structure Env where
  formatFloat : ℚ → String
  roundTrip : String → Except String (Int × String)
  unmarshal : String → Except String Response

/-- The login `SendMessage` writes into a message that failed validation. -/
def placeholderLogin : String := "do not show real login for err and log"

/-- The password `SendMessage` writes into a message that failed validation. -/
def placeholderPassword : String := "do not show real password for err and log"

/-- The two results of `SendMessage`, and the caller's message as the call
leaves it (`SendMessage` takes a pointer and writes through it). -/
structure SendResult where
  response : Response
  err : Option String
  message : Option Message

/-- The text of `fmt.Errorf("failed to validate sending message '%s': %w", json, err)`. -/
def wrapValidation (json e : String) : String :=
  "failed to validate sending message \x27" ++ json ++ "\x27: " ++ e

/-- The text of `fmt.Errorf("неправильный статус ответа от сервера: %d", code)`. -/
def errBadStatus (code : Int) : String :=
  "неправильный статус ответа от сервера: " ++ toString code

/-- The text of `errors.New("empty response from server")`. -/
def errEmptyResponse : String := "empty response from server"

/-- The text `json` of `json, _ := message.JSON()`: empty when `JSON` fails. -/
def jsonOrEmpty (formatFloat : ℚ → String) (m : Message) : String :=
  match JSON formatFloat m with
  | .ok text => text
  | .error _ => ""

/-- The checks of `SendMessage` on a decoded response: the top-level error,
then the first recipient with an error. -/
def checkResponse (response : Response) : Response × Option String :=
  if goLen response.Error > 0 ∨ response.ErrorCode > 0 then ({}, some response.Error)
  else
    match response.Phones.find? (fun phone => decide (goLen phone.Error ≠ 0)) with
    | some phone => ({}, some phone.Error)
    | none => (response, none)

/-- The method `Client.SendMessage`; `none` is the nil pointer. -/
def SendMessage (env : Env) (c : Client) (message : Option Message) : SendResult :=
  match message with
  | none => { response := {}, err := some "message for send can\x27t be nil", message := none }
  | some m0 =>
    let m1 := fillCredentials c m0
    match Validate m1 with
    | .error e =>
      let m2 := { m1 with Login := placeholderLogin, Password := placeholderPassword }
      { response := {}, err := some (wrapValidation (jsonOrEmpty env.formatFloat m2) e),
        message := some m2 }
    | .ok _ =>
      match JSON env.formatFloat m1 with
      | .error e => { response := {}, err := some e, message := some m1 }
      | .ok jsonData =>
        match env.roundTrip jsonData with
        | .error e => { response := {}, err := some e, message := some m1 }
        | .ok (statusCode, bytes) =>
          if goLen bytes = 0 then
            { response := {}, err := some errEmptyResponse, message := some m1 }
          else if statusCode ≠ 200 then
            { response := {}, err := some (errBadStatus statusCode), message := some m1 }
          else
            match env.unmarshal bytes with
            | .error e =>
              { response := {},
                err := some ("failed to parse json: \x27" ++ bytes ++ "\x27, " ++ e),
                message := some m1 }
            | .ok response =>
              { response := (checkResponse response).1, err := (checkResponse response).2,
                message := some m1 }

/-! ## Forms and sample values used in the statements -/

/-- A message with the required fields only (the request of `example/main.go`
with a login and a password). -/
def sampleMessage : Message :=
  { Login := "L", Password := "P", Phones := "+71234567890", Message := "hi" }

/-- A string of `n` copies of one character. -/
def repeatChar (c : Char) (n : Nat) : String := String.mk (List.replicate n c)

/-- The form `H:MM` or `HH:MM`: one or two ASCII digits, a colon, two ASCII
digits. -/
def hourMinuteForm (s : String) : Bool :=
  match s.toList with
  | [h, c, a, b] => isDigitChar h && decide (c = ':') && isDigitChar a && isDigitChar b
  | [h1, h2, c, a, b] =>
    isDigitChar h1 && isDigitChar h2 && decide (c = ':') && isDigitChar a && isDigitChar b
  | _ => false

/-- A non-empty sequence of ASCII digits. -/
def isNumber (x : List Char) : Bool := !x.isEmpty && x.all isDigitChar

/-- The form `digits,digits,digits`: three non-empty sequences of ASCII digits
separated by two commas. -/
def ThreeNumbers (s : String) : Prop :=
  ∃ a b c : List Char, isNumber a = true ∧ isNumber b = true ∧ isNumber c = true ∧
    s.toList = a ++ ',' :: (b ++ ',' :: c)

namespace GoTime
open Std

/-- The chunk kinds that `parseStd` interprets. -/
def interpreted : Std → Bool
  | stdYear | stdNumMonth | stdZeroMonth | stdDay | stdZeroDay | stdHour | stdHour12
  | stdZeroHour12 | stdMinute | stdZeroMinute | stdSecond | stdZeroSecond => true
  | _ => false

/-- Whether the loop of `parse` reaches the end of the layout within `fuel`
turns meeting interpreted chunks only. -/
def wellModelled : Nat → List Char → Bool
  | 0, _ => false
  | fuel + 1, layout =>
    match nextStdChunk layout with
    | (_, std, suffix) =>
      if std = stdNone then true else interpreted std && wellModelled fuel suffix

end GoTime

/-- What the two checks of `valid` in `Validate` give when every other check
passes. -/
def validOutcome (valid : String) : Except String Unit :=
  if valid ≠ "" ∧ MatchString validRegex valid = false then .error errValidPattern
  else if valid ≠ "" then
    match validateValid valid with
    | .error e => .error (wrapValid e)
    | .ok _ => .ok ()
  else .ok ()

/-- The number two digits stand for. -/
def twoDigits (a b : Char) : Int := GoTime.digitVal a * 10 + GoTime.digitVal b

/-- The year a two-digit year stands for in Go: 1969 to 2068. -/
def fullYear (yy : Int) : Int := if yy ≥ 69 then yy + 1900 else yy + 2000

/-- Ten digits that read as day, month, year, hour and minute of a moment that
exists: month 1 to 12, a day of that month in that year, hour 0 to 23, minute 0
to 59. -/
def validDateTime (d1 d2 m1 m2 y1 y2 h1 h2 n1 n2 : Char) : Bool :=
  [d1, d2, m1, m2, y1, y2, h1, h2, n1, n2].all isDigitChar &&
  decide (1 ≤ twoDigits m1 m2) && decide (twoDigits m1 m2 ≤ 12) &&
  decide (1 ≤ twoDigits d1 d2) &&
  decide (twoDigits d1 d2 ≤ GoTime.daysIn (twoDigits m1 m2) (fullYear (twoDigits y1 y2))) &&
  decide (twoDigits h1 h2 ≤ 23) && decide (twoDigits n1 n2 ≤ 59)

/-- The ten digits written as `DDMMYYHHmm`. -/
def compactDateTime (d1 d2 m1 m2 y1 y2 h1 h2 n1 n2 : Char) : String :=
  String.mk [d1, d2, m1, m2, y1, y2, h1, h2, n1, n2]

/-- The ten digits written as `DD.MM.YY HH:MM`. -/
def dottedDateTime (d1 d2 m1 m2 y1 y2 h1 h2 n1 n2 : Char) : String :=
  String.mk [d1, d2, '.', m1, m2, '.', y1, y2, ' ', h1, h2, ':', n1, n2]

/-- The two errors about the send time that `Validate` can return: the error
of `validateTime` wrapped by the first check, and bare from the second. -/
def isSendTimeError (r : Except String Unit) : Prop :=
  r = .error (wrapTime errTimeFormat) ∨ r = .error errTimeFormat

/-- The five documented forms of a send time: ten digits; `DD.MM.YY HH:MM`;
two two-digit hours around a hyphen; digits followed by `ts`; a plus sign
followed by digits. -/
def documentedTimeForm (s : String) : Bool :=
  let l := s.toList
  (l.length == 10 && l.all isDigitChar) ||
  (match l with
    | [d1, d2, '.', m1, m2, '.', y1, y2, ' ', h1, h2, ':', n1, n2] =>
      [d1, d2, m1, m2, y1, y2, h1, h2, n1, n2].all isDigitChar
    | _ => false) ||
  (match l with
    | [a, b, '-', c, d] => [a, b, c, d].all isDigitChar
    | _ => false) ||
  (isNumber (l.take (l.length - 2)) && l.drop (l.length - 2) == ['t', 's']) ||
  (match l with
    | '+' :: ds => isNumber ds
    | _ => false)

/-- The message of lines 85 and 86 of `client.go`: login and password replaced
by the two placeholders. -/
def redact (m : Message) : Message :=
  { m with Login := placeholderLogin, Password := placeholderPassword }

/-- The start of every JSON object written for a redacted message. -/
def redactedHead : String :=
  "\x7b\"login\":\"do not show real login for err and log\"," ++
    "\"psw\":\"do not show real password for err and log\""

/-- An environment whose gateway answers every request with the given status
and body, and whose decoder gives the given response. -/
def fixedEnv (statusCode : Int) (body : String) (response : Response) : Env :=
  { formatFloat := fun _ => "0",
    roundTrip := fun _ => .ok (statusCode, body),
    unmarshal := fun _ => .ok response }

/-- The client of the end-to-end scenarios. -/
def sampleClient : Client := NewClient "L" "P" "S"

/-- The request of the end-to-end scenarios: phones and text only. -/
def sampleRequest : Message := { Phones := "+71234567890", Message := "hi" }

/-! ## Lemmas on characters and on the regular expressions -/

open RegularExpression

theorem isDigitChar_iff_toNat (c : Char) : isDigitChar c = true ↔ 48 ≤ c.toNat ∧ c.toNat ≤ 57 := by
  simp only [isDigitChar, Bool.and_eq_true, decide_eq_true_eq]
  exact Iff.rfl

theorem char_of_toNat {c d : Char} (h : c.toNat = d.toNat) : c = d := by
  apply Char.ext
  apply UInt32.ext
  exact h

theorem isDigitChar_cases (c : Char) : isDigitChar c = true ↔
    c = '0' ∨ c = '1' ∨ c = '2' ∨ c = '3' ∨ c = '4' ∨ c = '5' ∨ c = '6' ∨ c = '7' ∨ c = '8'
      ∨ c = '9' := by
  rw [isDigitChar_iff_toNat]
  constructor
  · rintro ⟨h1, h2⟩
    have : c.toNat = 48 ∨ c.toNat = 49 ∨ c.toNat = 50 ∨ c.toNat = 51 ∨ c.toNat = 52 ∨ c.toNat = 53 ∨ c.toNat = 54 ∨ c.toNat = 55 ∨ c.toNat = 56 ∨ c.toNat = 57 := by omega
    rcases this with h | h | h | h | h | h | h | h | h | h
    · left; exact char_of_toNat h
    · right; left; exact char_of_toNat h
    · right; right; left; exact char_of_toNat h
    · right; right; right; left; exact char_of_toNat h
    · right; right; right; right; left; exact char_of_toNat h
    · right; right; right; right; right; left; exact char_of_toNat h
    · right; right; right; right; right; right; left; exact char_of_toNat h
    · right; right; right; right; right; right; right; left; exact char_of_toNat h
    · right; right; right; right; right; right; right; right; left; exact char_of_toNat h
    · right; right; right; right; right; right; right; right; right; exact char_of_toNat h
  · rintro (h | h | h | h | h | h | h | h | h | h) <;> subst h <;> decide

theorem reDigit_rmatch (x : List Char) :
    reDigit.rmatch x = true ↔ ∃ c, isDigitChar c = true ∧ x = [c] := by
  simp only [reDigit, add_rmatch_iff, char_rmatch_iff, isDigitChar_cases]
  constructor
  · rintro (((((((((h | h) | h) | h) | h) | h) | h) | h) | h) | h) <;> exact ⟨_, by simp, h⟩
  · rintro ⟨c, (h | h | h | h | h | h | h | h | h | h), rfl⟩ <;> subst h <;> simp

theorem validRegex_rmatch (x : List Char) :
    validRegex.rmatch x = true ↔
      (∃ h a b, isDigitChar h = true ∧ isDigitChar a = true ∧ isDigitChar b = true ∧
        x = [h, ':', a, b]) ∨
      (∃ h1 h2 a b, isDigitChar h1 = true ∧ isDigitChar h2 = true ∧ isDigitChar a = true ∧
        isDigitChar b = true ∧ x = [h1, h2, ':', a, b]) := by
  simp only [validRegex, mul_rmatch_iff, add_rmatch_iff, one_rmatch_iff, char_rmatch_iff,
    reDigit_rmatch]
  constructor
  · rintro ⟨t, u, rfl, ⟨t1, t2, rfl, ⟨p, q, rfl, ⟨h1, hh1, rfl⟩, hq⟩, rfl⟩,
      ⟨v, w, rfl, ⟨a, ha, rfl⟩, ⟨b, hb, rfl⟩⟩⟩
    rcases hq with rfl | ⟨h2, hh2, rfl⟩
    · left; exact ⟨h1, a, b, hh1, ha, hb, rfl⟩
    · right; exact ⟨h1, h2, a, b, hh1, hh2, ha, hb, rfl⟩
  · rintro (⟨h, a, b, hh, ha, hb, rfl⟩ | ⟨h1, h2, a, b, hh1, hh2, ha, hb, rfl⟩)
    · exact ⟨[h, ':'], [a, b], rfl, ⟨[h], [':'], rfl, ⟨[h], [], rfl, ⟨h, hh, rfl⟩, Or.inl rfl⟩,
        rfl⟩, ⟨[a], [b], rfl, ⟨a, ha, rfl⟩, ⟨b, hb, rfl⟩⟩⟩
    · exact ⟨[h1, h2, ':'], [a, b], rfl, ⟨[h1, h2], [':'], rfl, ⟨[h1], [h2], rfl, ⟨h1, hh1, rfl⟩,
        Or.inr ⟨h2, hh2, rfl⟩⟩, rfl⟩, ⟨[a], [b], rfl, ⟨a, ha, rfl⟩, ⟨b, hb, rfl⟩⟩⟩

theorem MatchString_validRegex (s : String) :
    MatchString validRegex s = hourMinuteForm s := by
  rw [Bool.eq_iff_iff, MatchString, validRegex_rmatch, hourMinuteForm]
  constructor
  · rintro (⟨h, a, b, hh, ha, hb, hx⟩ | ⟨h1, h2, a, b, hh1, hh2, ha, hb, hx⟩)
    · rw [hx]; simp [hh, ha, hb]
    · rw [hx]; simp [hh1, hh2, ha, hb]
  · intro h
    split at h
    · rename_i h0 c a b hx
      simp only [Bool.and_eq_true, decide_eq_true_eq] at h
      obtain ⟨⟨⟨hh, rfl⟩, ha⟩, hb⟩ := h
      exact Or.inl ⟨_, _, _, hh, ha, hb, hx⟩
    · rename_i h1 h2 c a b hx
      simp only [Bool.and_eq_true, decide_eq_true_eq] at h
      obtain ⟨⟨⟨⟨hh1, hh2⟩, rfl⟩, ha⟩, hb⟩ := h
      exact Or.inr ⟨_, _, _, _, hh1, hh2, ha, hb, hx⟩
    · simp at h

theorem star_reDigit_rmatch (x : List Char) :
    (star reDigit).rmatch x = true ↔ x.all isDigitChar = true := by
  rw [star_rmatch_iff]
  constructor
  · rintro ⟨S, rfl, hS⟩
    simp only [List.all_eq_true, List.mem_flatten]
    rintro c ⟨t, ht, hc⟩
    obtain ⟨_, ht2⟩ := hS t ht
    obtain ⟨d, hd, rfl⟩ := (reDigit_rmatch t).1 ht2
    simp at hc
    subst hc
    exact hd
  · intro h
    refine ⟨x.map (fun c => [c]), ?_, ?_⟩
    · clear h
      induction x with
      | nil => rfl
      | cons a l ih => simpa using ih
    · intro t ht
      simp only [List.mem_map] at ht
      obtain ⟨c, hc, rfl⟩ := ht
      refine ⟨by simp, (reDigit_rmatch _).2 ⟨c, ?_, rfl⟩⟩
      exact (List.all_eq_true.1 h) c hc

theorem reNumber_rmatch (x : List Char) :
    reNumber.rmatch x = true ↔ isNumber x = true := by
  simp only [reNumber, mul_rmatch_iff, reDigit_rmatch, star_reDigit_rmatch, isNumber]
  constructor
  · rintro ⟨t, u, rfl, ⟨c, hc, rfl⟩, hu⟩
    simp [hc, hu]
  · intro h
    cases x with
    | nil => simp at h
    | cons c l =>
      simp only [List.isEmpty_cons, Bool.not_false, List.all_cons, Bool.true_and,
        Bool.and_eq_true] at h
      exact ⟨[c], l, rfl, ⟨c, h.1, rfl⟩, h.2⟩

theorem isValidParam_iff (s : String) : isValidParam s = true ↔ ThreeNumbers s := by
  simp only [isValidParam, MatchString, validParamRegex, mul_rmatch_iff, reNumber_rmatch,
    char_rmatch_iff, ThreeNumbers]
  constructor
  · rintro ⟨t, c, hx, ⟨t1, u1, rfl, ⟨t2, b, rfl, ⟨a, u3, rfl, ha, rfl⟩, hb⟩, rfl⟩, hc⟩
    exact ⟨a, b, c, ha, hb, hc, by rw [hx]; simp⟩
  · rintro ⟨a, b, c, ha, hb, hc, hx⟩
    exact ⟨a ++ [','] ++ b ++ [','], c, by rw [hx]; simp, ⟨a ++ [','] ++ b, [','], rfl,
      ⟨a ++ [','], b, rfl, ⟨a, [','], rfl, ha, rfl⟩, hb⟩, rfl⟩, hc⟩


theorem ite_error_ok {c : Prop} [Decidable c] {e : String} {k : Except String Unit} :
    (if c then Except.error e else k) = .ok () ↔ ¬ c ∧ k = .ok () := by
  split_ifs with h <;> simp [h]

theorem periodOutOfRange_zero : periodOutOfRange (Float64.finite 0) = false := by decide

/-! ## Lemmas on the required fields -/

theorem goLen_repeatChar (c : Char) (n : Nat) : goLen (repeatChar c n) = n * c.utf8Size := by
  induction n with
  | zero => simp [goLen, repeatChar]; rfl
  | succ k ih =>
    have step : goLen (repeatChar c (k + 1)) = goLen (repeatChar c k) + c.utf8Size := rfl
    rw [step, ih]; ring

theorem length_repeatChar (c : Char) (n : Nat) : (repeatChar c n).length = n :=
  List.length_replicate n c

theorem repeatChar_ne_empty (c : Char) (n : Nat) (h : 0 < n) : repeatChar c n ≠ "" := by
  intro he
  have := congrArg String.length he
  rw [length_repeatChar] at this
  simp at this
  omega


/-! ## Lemmas on `time.Parse` -/

namespace GoTime
open Std

theorem finish_ne_outOfModel (t : Fields) : finish t ≠ .outOfModel := by
  unfold finish
  simp only
  split_ifs <;> simp

theorem parseStd_ne_outOfModel (std : Std) (layout value : List Char) (t : Fields)
    (h : interpreted std = true) : ¬ parseStd std layout value t = .outOfModel := by
  cases std <;> simp [interpreted] at h <;> unfold parseStd <;> simp only <;>
    (repeat' split) <;> simp

theorem parseLoop_modelled (fuel : Nat) : ∀ (layout value : List Char) (t : Fields),
    wellModelled fuel layout = true → parseLoop fuel layout value t ≠ .outOfModel := by
  induction fuel with
  | zero => intro layout value t h; simp [wellModelled] at h
  | succ n ih =>
    intro layout value t h
    unfold wellModelled at h
    unfold parseLoop
    rcases hc : nextStdChunk layout with ⟨pfx, std, suffix⟩
    rw [hc] at h
    simp only at h ⊢
    cases hs : skip value pfx with
    | none => simp
    | some value1 =>
      simp only
      by_cases hstd : std = stdNone
      · simp only [hstd, if_true]
        split_ifs
        · simp
        · exact finish_ne_outOfModel t
      · simp only [hstd, if_false, Bool.and_eq_true] at h ⊢
        cases hp : parseStd std suffix value1 t with
        | errBad => simp
        | outOfModel => exact absurd hp (parseStd_ne_outOfModel _ _ _ _ h.1)
        | next value2 t2 => exact ih _ _ _ h.2

/-- None of the layouts of the program leaves the embedding: `Parse` gives
either parsed fields or Go's parse error. -/
theorem modelled_ok (layout : String) (h : layout ∈ "15:04" :: timeFormats) (value : String) :
    Parse layout value ≠ .outOfModel := by
  have hw : wellModelled (layout.length + 1) layout.toList = true := by
    simp only [timeFormats, List.mem_cons, List.mem_singleton, List.not_mem_nil, or_false] at h
    rcases h with rfl | rfl | rfl | rfl | rfl | rfl <;> decide
  exact parseLoop_modelled _ _ _ _ hw


theorem digitVal_range {c : Char} (h : isDigitChar c = true) : 0 ≤ digitVal c ∧ digitVal c ≤ 9 := by
  rw [isDigitChar_iff_toNat] at h
  unfold digitVal
  omega

theorem getnum_two (a b : Char) (rest : List Char) (fixed : Bool)
    (ha : isDigitChar a = true) (hb : isDigitChar b = true) :
    getnum (a :: b :: rest) fixed = some (digitVal a * 10 + digitVal b, rest) := by
  simp [getnum, isDigit, ha, hb]

theorem getnum_one (a b : Char) (rest : List Char)
    (ha : isDigitChar a = true) (hb : isDigitChar b = false) :
    getnum (a :: b :: rest) false = some (digitVal a, b :: rest) := by
  simp [getnum, isDigit, ha, hb]

theorem chunks_hm : nextStdChunk ['1', '5', ':', '0', '4'] = ([], stdHour, [':', '0', '4']) := by decide
theorem chunks_m : nextStdChunk [':', '0', '4'] = ([':'], stdZeroMinute, []) := by decide
theorem chunks_nil : nextStdChunk [] = ([], stdNone, []) := by decide

theorem Parse_hm_two (h1 h2 a b : Char) (hh1 : isDigitChar h1 = true)
    (hh2 : isDigitChar h2 = true) (ha : isDigitChar a = true) (hb : isDigitChar b = true) :
    Parse "15:04" (String.mk [h1, h2, ':', a, b]) =
      if 24 ≤ digitVal h1 * 10 + digitVal h2 then .errBad
      else if 60 ≤ digitVal a * 10 + digitVal b then .errBad
      else .ok { month := 1, day := 1, hour := digitVal h1 * 10 + digitVal h2,
                 min := digitVal a * 10 + digitVal b } := by
  have l1 := digitVal_range hh1
  have l2 := digitVal_range hh2
  have l3 := digitVal_range ha
  have l4 := digitVal_range hb
  have e : Parse "15:04" (String.mk [h1, h2, ':', a, b]) =
      parseLoop 6 ['1', '5', ':', '0', '4'] [h1, h2, ':', a, b] {} := rfl
  rw [e]
  have n1 : ¬ (digitVal h1 * 10 + digitVal h2 < 0) := by omega
  have n2 : ¬ (digitVal a * 10 + digitVal b < 0) := by omega
  by_cases hr : 24 ≤ digitVal h1 * 10 + digitVal h2
  · simp [parseLoop, chunks_hm, skip, skipLoop, parseStd, getnum_two, hh1, hh2, hr]
  · by_cases hm : 60 ≤ digitVal a * 10 + digitVal b
    · simp [parseLoop, chunks_hm, chunks_m, skip, skipLoop, parseStd, getnum_two, hh1, hh2,
        ha, hb, hr, hm, n1]
    · simp [parseLoop, chunks_hm, chunks_m, chunks_nil, skip, skipLoop, parseStd, getnum_two,
        hh1, hh2, ha, hb, hr, hm, n1, n2, finish, daysIn]


theorem Parse_hm_one (h a b : Char) (hh : isDigitChar h = true)
    (ha : isDigitChar a = true) (hb : isDigitChar b = true) :
    Parse "15:04" (String.mk [h, ':', a, b]) =
      if 60 ≤ digitVal a * 10 + digitVal b then .errBad
      else .ok { month := 1, day := 1, hour := digitVal h,
                 min := digitVal a * 10 + digitVal b } := by
  have l1 := digitVal_range hh
  have l3 := digitVal_range ha
  have l4 := digitVal_range hb
  have e : Parse "15:04" (String.mk [h, ':', a, b]) =
      parseLoop 6 ['1', '5', ':', '0', '4'] [h, ':', a, b] {} := rfl
  rw [e]
  have c : isDigitChar ':' = false := by decide
  have n1 : ¬ (digitVal h < 0) := by omega
  have n2 : ¬ (digitVal a * 10 + digitVal b < 0) := by omega
  have n3 : ¬ (24 ≤ digitVal h) := by omega
  by_cases hm : 60 ≤ digitVal a * 10 + digitVal b
  · simp [parseLoop, chunks_hm, chunks_m, skip, skipLoop, parseStd, getnum_two, getnum_one, hh,
      ha, hb, c, hm, n1, n3]
  · simp [parseLoop, chunks_hm, chunks_m, chunks_nil, skip, skipLoop, parseStd, getnum_two,
      getnum_one, hh, ha, hb, c, hm, n1, n2, n3, finish, daysIn]


theorem atoi_two (a b : Char) (ha : isDigitChar a = true) (hb : isDigitChar b = true) :
    atoi [a, b] = some (digitVal a * 10 + digitVal b) := by
  rcases (isDigitChar_cases a).1 ha with rfl | rfl | rfl | rfl | rfl | rfl | rfl | rfl | rfl | rfl <;>
  rcases (isDigitChar_cases b).1 hb with rfl | rfl | rfl | rfl | rfl | rfl | rfl | rfl | rfl | rfl <;>
  rfl

theorem digit_ne_space {c : Char} (h : isDigitChar c = true) : c ≠ ' ' := by
  rintro rfl
  exact absurd h (by decide)

theorem chunks_c1 : nextStdChunk ['0', '2', '0', '1', '0', '6', '1', '5', '0', '4'] =
    ([], stdZeroDay, ['0', '1', '0', '6', '1', '5', '0', '4']) := by decide
theorem chunks_c2 : nextStdChunk ['0', '1', '0', '6', '1', '5', '0', '4'] =
    ([], stdZeroMonth, ['0', '6', '1', '5', '0', '4']) := by decide
theorem chunks_c3 : nextStdChunk ['0', '6', '1', '5', '0', '4'] =
    ([], stdYear, ['1', '5', '0', '4']) := by decide
theorem chunks_c4 : nextStdChunk ['1', '5', '0', '4'] = ([], stdHour, ['0', '4']) := by decide
theorem chunks_c5 : nextStdChunk ['0', '4'] = ([], stdZeroMinute, []) := by decide

theorem Parse_compact (d1 d2 m1 m2 y1 y2 h1 h2 n1 n2 : Char)
    (hv : validDateTime d1 d2 m1 m2 y1 y2 h1 h2 n1 n2 = true) :
    Parse "0201061504" (compactDateTime d1 d2 m1 m2 y1 y2 h1 h2 n1 n2) =
      .ok { year := fullYear (twoDigits y1 y2), month := twoDigits m1 m2,
            day := twoDigits d1 d2, hour := twoDigits h1 h2, min := twoDigits n1 n2 } := by
  simp only [validDateTime, List.all_cons, List.all_nil, Bool.and_true, Bool.and_eq_true,
    decide_eq_true_eq] at hv
  obtain ⟨⟨⟨⟨⟨⟨⟨hd1, hd2, hm1, hm2, hy1, hy2, hh1, hh2, hn1, hn2⟩, hM1⟩, hM2⟩, hD1⟩, hD2⟩, hH⟩, hN⟩ := hv
  have e : Parse "0201061504" (compactDateTime d1 d2 m1 m2 y1 y2 h1 h2 n1 n2) =
      parseLoop 11 ['0', '2', '0', '1', '0', '6', '1', '5', '0', '4']
        [d1, d2, m1, m2, y1, y2, h1, h2, n1, n2] {} := rfl
  rw [e]
  unfold twoDigits fullYear at *
  have lh1 := digitVal_range hh1
  have lh2 := digitVal_range hh2
  have ln1 := digitVal_range hn1
  have ln2 := digitVal_range hn2
  have f1 : ¬ (digitVal m1 * 10 + digitVal m2 ≤ 0) := by omega
  have f2 : ¬ (12 < digitVal m1 * 10 + digitVal m2) := by omega
  have f3 : ¬ (digitVal h1 * 10 + digitVal h2 < 0) := by omega
  have f4 : ¬ (24 ≤ digitVal h1 * 10 + digitVal h2) := by omega
  have f5 : ¬ (digitVal n1 * 10 + digitVal n2 < 0) := by omega
  have f6 : ¬ (60 ≤ digitVal n1 * 10 + digitVal n2) := by omega
  have f7 : ¬ (digitVal m1 * 10 + digitVal m2 < 0) := by omega
  have f8 : ¬ (digitVal d1 * 10 + digitVal d2 < 0) := by omega
  have f9 : ¬ (digitVal d1 * 10 + digitVal d2 < 1) := by omega
  simp only [ge_iff_le] at hD2
  have f10 := not_lt.mpr hD2
  simp [parseLoop, chunks_c1, chunks_c2, chunks_c3, chunks_c4, chunks_c5, chunks_nil, skip,
    skipLoop, parseStd, getnum_two, atoi_two, finish, hd1, hd2, hm1, hm2, hy1, hy2, hh1, hh2,
    hn1, hn2, f1, f2, f3, f4, f5, f6, f7, f8, f9, f10]


theorem chunks_d1 : nextStdChunk ['0', '2', '.', '0', '1', '.', '0', '6', ' ', '1', '5', ':', '0', '4']
    = ([], stdZeroDay, ['.', '0', '1', '.', '0', '6', ' ', '1', '5', ':', '0', '4']) := by decide
theorem chunks_d2 : nextStdChunk ['.', '0', '1', '.', '0', '6', ' ', '1', '5', ':', '0', '4']
    = (['.'], stdZeroMonth, ['.', '0', '6', ' ', '1', '5', ':', '0', '4']) := by decide
theorem chunks_d3 : nextStdChunk ['.', '0', '6', ' ', '1', '5', ':', '0', '4']
    = (['.'], stdYear, [' ', '1', '5', ':', '0', '4']) := by decide
theorem chunks_d4 : nextStdChunk [' ', '1', '5', ':', '0', '4']
    = ([' '], stdHour, [':', '0', '4']) := by decide

theorem Parse_dotted (d1 d2 m1 m2 y1 y2 h1 h2 n1 n2 : Char)
    (hv : validDateTime d1 d2 m1 m2 y1 y2 h1 h2 n1 n2 = true) :
    Parse "02.01.06 15:04" (dottedDateTime d1 d2 m1 m2 y1 y2 h1 h2 n1 n2) =
      .ok { year := fullYear (twoDigits y1 y2), month := twoDigits m1 m2,
            day := twoDigits d1 d2, hour := twoDigits h1 h2, min := twoDigits n1 n2 } := by
  simp only [validDateTime, List.all_cons, List.all_nil, Bool.and_true, Bool.and_eq_true,
    decide_eq_true_eq] at hv
  obtain ⟨⟨⟨⟨⟨⟨⟨hd1, hd2, hm1, hm2, hy1, hy2, hh1, hh2, hn1, hn2⟩, hM1⟩, hM2⟩, hD1⟩, hD2⟩, hH⟩, hN⟩ := hv
  have e : Parse "02.01.06 15:04" (dottedDateTime d1 d2 m1 m2 y1 y2 h1 h2 n1 n2) =
      parseLoop 15 ['0', '2', '.', '0', '1', '.', '0', '6', ' ', '1', '5', ':', '0', '4']
        [d1, d2, '.', m1, m2, '.', y1, y2, ' ', h1, h2, ':', n1, n2] {} := rfl
  rw [e]
  unfold twoDigits fullYear at *
  have lh1 := digitVal_range hh1
  have lh2 := digitVal_range hh2
  have ln1 := digitVal_range hn1
  have ln2 := digitVal_range hn2
  have f1 : ¬ (digitVal m1 * 10 + digitVal m2 ≤ 0) := by omega
  have f2 : ¬ (12 < digitVal m1 * 10 + digitVal m2) := by omega
  have f3 : ¬ (digitVal h1 * 10 + digitVal h2 < 0) := by omega
  have f4 : ¬ (24 ≤ digitVal h1 * 10 + digitVal h2) := by omega
  have f5 : ¬ (digitVal n1 * 10 + digitVal n2 < 0) := by omega
  have f6 : ¬ (60 ≤ digitVal n1 * 10 + digitVal n2) := by omega
  have f7 : ¬ (digitVal m1 * 10 + digitVal m2 < 0) := by omega
  have f8 : ¬ (digitVal d1 * 10 + digitVal d2 < 0) := by omega
  have f9 : ¬ (digitVal d1 * 10 + digitVal d2 < 1) := by omega
  simp only [ge_iff_le] at hD2
  have f10 := not_lt.mpr hD2
  have f11 := digit_ne_space hh1
  simp [parseLoop, chunks_d1, chunks_d2, chunks_d3, chunks_d4, chunks_m, chunks_nil, skip,
    skipLoop, cutspace, parseStd, getnum_two, atoi_two, finish, hd1, hd2, hm1, hm2, hy1, hy2,
    hh1, hh2, hn1, hn2, f1, f2, f3, f4, f5, f6, f7, f8, f9, f10, f11]

end GoTime

/-- The result of `validateValid` on two digits, a colon and two digits. -/
theorem validateValid_two (h1 h2 a b : Char) (hh1 : isDigitChar h1 = true)
    (hh2 : isDigitChar h2 = true) (ha : isDigitChar a = true) (hb : isDigitChar b = true) :
    validateValid (String.mk [h1, h2, ':', a, b]) =
      if 24 ≤ GoTime.digitVal h1 * 10 + GoTime.digitVal h2 then .error errValidFormat
      else if 60 ≤ GoTime.digitVal a * 10 + GoTime.digitVal b then .error errValidFormat
      else if GoTime.digitVal h1 * 10 + GoTime.digitVal h2 < 1 then .error errValidValue
      else .ok () := by
  have l3 := GoTime.digitVal_range ha
  have l4 := GoTime.digitVal_range hb
  have e1 : String.mk [h1, h2, ':', a, b] ≠ "" := fun e => by
    have : (5 : Nat) = 0 := congrArg String.length e
    omega
  have e2 : String.mk [h1, h2, ':', a, b] ≠ "0" := fun e => by
    have : (5 : Nat) = 1 := congrArg String.length e
    omega
  unfold validateValid
  rw [if_neg e1, if_neg e2, GoTime.Parse_hm_two h1 h2 a b hh1 hh2 ha hb]
  by_cases hr : 24 ≤ GoTime.digitVal h1 * 10 + GoTime.digitVal h2
  · simp [hr]
  · by_cases hm : 60 ≤ GoTime.digitVal a * 10 + GoTime.digitVal b
    · simp [hr, hm]
    · have hm2 : GoTime.digitVal a * 10 + GoTime.digitVal b ≤ 59 := by omega
      have n2 : ¬ (GoTime.digitVal a * 10 + GoTime.digitVal b < 0) := by omega
      have n3 : ¬ (24 < GoTime.digitVal h1 * 10 + GoTime.digitVal h2) := by omega
      have n4 : ¬ (59 < GoTime.digitVal a * 10 + GoTime.digitVal b) := by omega
      simp [hr, hm, GoTime.Fields.Hour, GoTime.Fields.Minute, n2, n3, n4]

/-- The result of `validateValid` on one digit, a colon and two digits. -/
theorem validateValid_one (h a b : Char) (hh : isDigitChar h = true)
    (ha : isDigitChar a = true) (hb : isDigitChar b = true) :
    validateValid (String.mk [h, ':', a, b]) =
      if 60 ≤ GoTime.digitVal a * 10 + GoTime.digitVal b then .error errValidFormat
      else if GoTime.digitVal h < 1 then .error errValidValue
      else .ok () := by
  have l1 := GoTime.digitVal_range hh
  have l3 := GoTime.digitVal_range ha
  have l4 := GoTime.digitVal_range hb
  have e1 : String.mk [h, ':', a, b] ≠ "" := fun e => by
    have : (4 : Nat) = 0 := congrArg String.length e
    omega
  have e2 : String.mk [h, ':', a, b] ≠ "0" := fun e => by
    have : (4 : Nat) = 1 := congrArg String.length e
    omega
  unfold validateValid
  rw [if_neg e1, if_neg e2, GoTime.Parse_hm_one h a b hh ha hb]
  by_cases hm : 60 ≤ GoTime.digitVal a * 10 + GoTime.digitVal b
  · simp [hm]
  · have hm2 : GoTime.digitVal a * 10 + GoTime.digitVal b ≤ 59 := by omega
    have n2 : ¬ (GoTime.digitVal a * 10 + GoTime.digitVal b < 0) := by omega
    have n3 : ¬ (24 < GoTime.digitVal h) := by omega
    have n4 : ¬ (59 < GoTime.digitVal a * 10 + GoTime.digitVal b) := by omega
    simp [hm, GoTime.Fields.Hour, GoTime.Fields.Minute, n2, n3, n4]

/-- When a message passes `Validate` once its `valid` is cleared, `Validate`
on the message itself is decided by the two checks of `valid`. -/
theorem Validate_eq_validOutcome (m : Message)
    (hother : Validate { m with Valid := "" } = .ok ()) :
    Validate m = validOutcome m.Valid := by
  unfold Validate at hother ⊢
  simp only [] at hother
  cases hR : validateRequiredFields m with
  | error e =>
    have : validateRequiredFields { m with Valid := "" } = validateRequiredFields m := rfl
    simp [this, hR] at hother
  | ok u =>
    have hR2 : validateRequiredFields { m with Valid := "" } = .ok u := hR
    rw [hR2] at hother
    simp only at hother ⊢
    cases hT : (if m.Time ≠ "" then validateTime m.Time else Except.ok ()) with
    | error e => rw [hT] at hother; simp at hother
    | ok v =>
      rw [hT] at hother
      simp only [ne_eq, not_true_eq_false, ↓reduceIte, false_and, ite_error_ok, and_true]
        at hother
      obtain ⟨c1, c2, c3, c4, c5, c6, c7, c8, c9, c10, c11, c12, c13, c14, c15, c16, c17, c18,
        c19, c20, c21⟩ := hother
      simp only [c1, c2, c3, c4, c5, c6, c7, c8, c9, c10, c11, c12, c13, c14, c15, c16, c17,
        c18, c19, c20, c21, if_false, validOutcome, Bool.false_eq_true]

theorem validateTime_of_validDateTime (d1 d2 m1 m2 y1 y2 h1 h2 n1 n2 : Char)
    (hv : validDateTime d1 d2 m1 m2 y1 y2 h1 h2 n1 n2 = true) :
    validateTime (compactDateTime d1 d2 m1 m2 y1 y2 h1 h2 n1 n2) = .ok () ∧
    validateTime (dottedDateTime d1 d2 m1 m2 y1 y2 h1 h2 n1 n2) = .ok () := by
  constructor
  · simp [validateTime, timeFormats, parseOk, GoTime.Parse_compact _ _ _ _ _ _ _ _ _ _ hv]
  · simp [validateTime, timeFormats, parseOk, GoTime.Parse_dotted _ _ _ _ _ _ _ _ _ _ hv]

theorem not_sendTime_ite {c : Prop} [Decidable c] {e : String} {k : Except String Unit}
    (he : e ≠ wrapTime errTimeFormat ∧ e ≠ errTimeFormat) (hk : ¬ isSendTimeError k) :
    ¬ isSendTimeError (if c then Except.error e else k) := by
  split_ifs
  · rintro (h | h)
    · exact he.1 (Except.error.inj h)
    · exact he.2 (Except.error.inj h)
  · exact hk

theorem wrapRequired_not_sendTime (e : String) :
    ¬ isSendTimeError (.error (wrapRequired e)) := by
  have hd : (wrapRequired e).data.head? = some 'm' := rfl
  rintro (h | h)
  · have h2 := Except.error.inj h
    rw [h2] at hd
    exact absurd hd (by decide)
  · have h2 := Except.error.inj h
    rw [h2] at hd
    exact absurd hd (by decide)

theorem wrapValid_not_sendTime (e : String) :
    ¬ isSendTimeError (.error (wrapValid e)) := by
  have hd : (wrapValid e).data.take 10 = "неверное з".data := rfl
  rintro (h | h)
  · have h2 := Except.error.inj h
    rw [h2] at hd
    exact absurd hd (by decide)
  · have h2 := Except.error.inj h
    rw [h2] at hd
    exact absurd hd (by decide)

/-- A message whose send time `validateTime` accepts gets no send-time error
from `Validate`. -/
theorem Validate_not_sendTime (m : Message) (ht : validateTime m.Time = .ok ()) :
    ¬ isSendTimeError (Validate m) := by
  have hT : (if m.Time ≠ "" then validateTime m.Time else Except.ok ()) = .ok () := by
    split_ifs
    · exact ht
    · rfl
  unfold Validate
  cases hR : validateRequiredFields m with
  | error e => exact wrapRequired_not_sendTime e
  | ok u =>
    simp only [hT]
    iterate 22 refine not_sendTime_ite (by decide) ?_
    split_ifs
    · cases hV : validateValid m.Valid with
      | error e => exact wrapValid_not_sendTime e
      | ok u => simp [isSendTimeError]
    · simp [isSendTimeError]

/-- A message that is valid apart from `valid` passes `Validate` when `valid`
is two digits, a colon and two digits with an hour from 1 to 23 and a minute up
to 59. -/
theorem Validate_valid_hour_1_to_23 (m : Message) (h1 h2 a b : Char)
    (hh1 : isDigitChar h1 = true) (hh2 : isDigitChar h2 = true)
    (ha : isDigitChar a = true) (hb : isDigitChar b = true)
    (hval : m.Valid = String.mk [h1, h2, ':', a, b])
    (hhour : 1 ≤ twoDigits h1 h2 ∧ twoDigits h1 h2 ≤ 23) (hmin : twoDigits a b ≤ 59)
    (hother : Validate { m with Valid := "" } = .ok ()) :
    Validate m = .ok () := by
  unfold twoDigits at hhour hmin
  have hre : MatchString validRegex m.Valid = true := by
    rw [hval, MatchString, validRegex_rmatch]
    exact Or.inr ⟨h1, h2, a, b, hh1, hh2, ha, hb, rfl⟩
  have hne : m.Valid ≠ "" := by
    rw [hval]
    intro e
    have : (5 : Nat) = 0 := congrArg String.length e
    omega
  have c : ¬ (m.Valid ≠ "" ∧ MatchString validRegex m.Valid = false) := by simp [hre]
  have r1 : ¬ (24 ≤ GoTime.digitVal h1 * 10 + GoTime.digitVal h2) := by omega
  have r2 : ¬ (60 ≤ GoTime.digitVal a * 10 + GoTime.digitVal b) := by omega
  have r3 : ¬ (GoTime.digitVal h1 * 10 + GoTime.digitVal h2 < 1) := by omega
  rw [Validate_eq_validOutcome m hother, validOutcome, if_neg c, if_pos hne, hval,
    validateValid_two h1 h2 a b hh1 hh2 ha hb, if_neg r1, if_neg r2, if_neg r3]

/-! ## Lemmas on `SendMessage` -/

theorem goLen_eq_zero (s : String) : goLen s = 0 ↔ s = "" := by
  cases s with
  | mk l =>
    simp only [goLen, String.utf8ByteSize_mk, String.utf8Len_eq_zero]
    constructor
    · rintro rfl; rfl
    · intro h; exact congrArg String.data h

/-- The result of `Validate` depends on login and password only through
whether each is empty. -/
theorem Validate_congr_credentials (m : Message) (l p : String)
    (hl : m.Login = "" ↔ l = "") (hp : m.Password = "" ↔ p = "") :
    Validate { m with Login := l, Password := p } = Validate m := by
  have hr : validateRequiredFields { m with Login := l, Password := p } =
      validateRequiredFields m := by
    unfold validateRequiredFields
    simp only [hl, hp]
  unfold Validate
  rw [hr]

theorem redact_fillCredentials (c : Client) (m : Message) :
    redact (fillCredentials c m) = redact m := by
  unfold fillCredentials
  split_ifs <;> rfl

theorem fillCredentials_frame (c : Client) (m : Message) :
    { fillCredentials c m with Login := m.Login, Password := m.Password } = m := by
  unfold fillCredentials
  split_ifs <;> rfl

/-- The result of `SendMessage` when validation fails. -/
theorem SendMessage_invalid (env : Env) (c : Client) (m : Message) (e : String)
    (h : Validate (fillCredentials c m) = .error e) :
    SendMessage env c (some m) =
      { response := {}, err := some (wrapValidation (jsonOrEmpty env.formatFloat (redact m)) e),
        message := some (redact m) } := by
  rw [← redact_fillCredentials c m]
  simp only [SendMessage, h]
  rfl

/-- The result of `SendMessage` once the gateway has replied. -/
theorem SendMessage_reply (env : Env) (c : Client) (m : Message) (jsonData body : String)
    (statusCode : Int) (hv : Validate (fillCredentials c m) = .ok ())
    (hj : JSON env.formatFloat (fillCredentials c m) = .ok jsonData)
    (hr : env.roundTrip jsonData = .ok (statusCode, body)) :
    SendMessage env c (some m) =
      if goLen body = 0 then
        { response := {}, err := some errEmptyResponse, message := some (fillCredentials c m) }
      else if statusCode ≠ 200 then
        { response := {}, err := some (errBadStatus statusCode),
          message := some (fillCredentials c m) }
      else
        match env.unmarshal body with
        | .error e =>
          { response := {}, err := some ("failed to parse json: \x27" ++ body ++ "\x27, " ++ e),
            message := some (fillCredentials c m) }
        | .ok response =>
          { response := (checkResponse response).1, err := (checkResponse response).2,
            message := some (fillCredentials c m) } := by
  simp only [SendMessage, hv, hj, hr]

/-- The result of `SendMessage` once the reply has been decoded. -/
theorem SendMessage_decoded (env : Env) (c : Client) (m : Message) (jsonData body : String)
    (response : Response) (hv : Validate (fillCredentials c m) = .ok ())
    (hj : JSON env.formatFloat (fillCredentials c m) = .ok jsonData)
    (hr : env.roundTrip jsonData = .ok (200, body)) (hb : body ≠ "")
    (hu : env.unmarshal body = .ok response) :
    SendMessage env c (some m) =
      { response := (checkResponse response).1, err := (checkResponse response).2,
        message := some (fillCredentials c m) } := by
  have hb2 : ¬ goLen body = 0 := fun h => hb ((goLen_eq_zero body).1 h)
  rw [SendMessage_reply env c m jsonData body 200 hv hj hr, if_neg hb2, if_neg (by simp), hu]

theorem jsonMembers_head (m : Message) :
    jsonMembers m =
      ("login", .str m.Login) :: ("psw", .str m.Password) :: (jsonMembers m).drop 2 := rfl

theorem joinMembers_cons_cons (a b : String) (rest : List String) :
    ∃ tail, joinMembers (a :: b :: rest) = a ++ "," ++ b ++ tail := by
  cases rest with
  | nil => exact ⟨"", by simp [joinMembers]⟩
  | cons x xs => exact ⟨"," ++ joinMembers (x :: xs), by simp [joinMembers, String.append_assoc]⟩

/-- The JSON object of a redacted message starts with the two placeholders. -/
theorem JSON_redact_head (formatFloat : ℚ → String) (m : Message) (text : String)
    (h : JSON formatFloat (redact m) = .ok text) : ∃ tail, text = redactedHead ++ tail := by
  have hL : (redact m).Login = placeholderLogin := rfl
  have hP : (redact m).Password = placeholderPassword := rfl
  unfold JSON at h
  rw [jsonMembers_head, hL, hP] at h
  simp only [encodeMembers, encodeValue] at h
  cases hrest : encodeMembers formatFloat ((jsonMembers (redact m)).drop 2) with
  | error e => rw [hrest] at h; simp at h
  | ok texts =>
    rw [hrest] at h
    simp only [Except.ok.injEq] at h
    obtain ⟨tail, ht⟩ := joinMembers_cons_cons
      (appendString "login" ++ ":" ++ appendString placeholderLogin)
      (appendString "psw" ++ ":" ++ appendString placeholderPassword) texts
    rw [ht] at h
    refine ⟨tail ++ "\x7d", ?_⟩
    rw [← h]
    have e1 : appendString "login" ++ ":" ++ appendString placeholderLogin ++ "," ++
        (appendString "psw" ++ ":" ++ appendString placeholderPassword) =
        "\"login\":\"do not show real login for err and log\"," ++
          "\"psw\":\"do not show real password for err and log\"" := by decide
    rw [e1]
    simp only [redactedHead, String.append_assoc]
    rw [← String.append_assoc]
    rfl

theorem encodeMembers_ok (formatFloat : ℚ → String) (l : List (String × JsonValue))
    (h : ∀ x ∈ l, ∀ f, x.2 = .float f → ∃ q, f = .finite q) :
    ∃ texts, encodeMembers formatFloat l = .ok texts := by
  induction l with
  | nil => exact ⟨[], rfl⟩
  | cons x xs ih =>
    obtain ⟨texts, ht⟩ := ih (fun y hy => h y (List.mem_cons_of_mem _ hy))
    obtain ⟨key, v⟩ := x
    have hx := h (key, v) (List.mem_cons_self _ _)
    cases v with
    | str s =>
      exact ⟨(appendString key ++ ":" ++ appendString s) :: texts,
        by simp [encodeMembers, encodeValue, ht]⟩
    | int i =>
      exact ⟨(appendString key ++ ":" ++ toString i) :: texts,
        by simp [encodeMembers, encodeValue, ht]⟩
    | float f =>
      obtain ⟨q, rfl⟩ := hx f rfl
      exact ⟨(appendString key ++ ":" ++ formatFloat q) :: texts,
        by simp [encodeMembers, encodeValue, ht]⟩

/-- For a message with a finite `Period`, `JSON` succeeds. -/
theorem JSON_ok_of_finite (formatFloat : ℚ → String) (m : Message) (q : ℚ)
    (h : m.Period = .finite q) : ∃ text, JSON formatFloat m = .ok text := by
  have hm : ∀ x ∈ jsonMembers m, ∀ f, x.2 = .float f → ∃ q, f = .finite q := by
    intro x hx f hf
    simp only [jsonMembers, List.mem_map, List.mem_filter] at hx
    obtain ⟨y, ⟨hy, -⟩, rfl⟩ := hx
    simp only [jsonFields, List.mem_cons, List.mem_singleton, List.not_mem_nil, or_false] at hy
    rcases hy with rfl | rfl | rfl | rfl | rfl | rfl | rfl | rfl | rfl | rfl | rfl | rfl | rfl |
      rfl | rfl | rfl | rfl | rfl | rfl | rfl | rfl | rfl | rfl | rfl | rfl | rfl | rfl | rfl |
      rfl | rfl | rfl | rfl | rfl | rfl | rfl | rfl | rfl | rfl | rfl | rfl <;>
      (simp only at hf; cases hf; try exact ⟨q, h⟩)
  obtain ⟨texts, ht⟩ := encodeMembers_ok formatFloat _ hm
  exact ⟨"\x7b" ++ joinMembers texts ++ "\x7d", by simp [JSON, ht]⟩

/-- Two runs whose credentials are empty in the same places validate alike. -/
theorem Validate_fill_congr (c1 c2 : Client) (m : Message) (login2 password2 : String)
    (hl : m.Login = "" ↔ login2 = "") (hp : m.Password = "" ↔ password2 = "")
    (hcl : c1.login = "" ↔ c2.login = "") (hcp : c1.password = "" ↔ c2.password = "") :
    Validate (fillCredentials c2 { m with Login := login2, Password := password2 }) =
      Validate (fillCredentials c1 m) := by
  by_cases hb : m.Login = "" ∧ m.Password = ""
  · have hb2 : login2 = "" ∧ password2 = "" := ⟨hl.1 hb.1, hp.1 hb.2⟩
    have e1 : fillCredentials c1 m = { m with Login := c1.login, Password := c1.password } := by
      unfold fillCredentials; rw [if_pos hb]
    have e2 : fillCredentials c2 { m with Login := login2, Password := password2 } =
        { m with Login := c2.login, Password := c2.password } := by
      unfold fillCredentials; rw [if_pos hb2]
    rw [e1, e2]
    exact Validate_congr_credentials { m with Login := c1.login, Password := c1.password }
      c2.login c2.password hcl hcp
  · have hb2 : ¬ (login2 = "" ∧ password2 = "") := fun h => hb ⟨hl.2 h.1, hp.2 h.2⟩
    have e1 : fillCredentials c1 m = m := by
      unfold fillCredentials; rw [if_neg hb]
    have e2 : fillCredentials c2 { m with Login := login2, Password := password2 } =
        { m with Login := login2, Password := password2 } := by
      unfold fillCredentials; rw [if_neg hb2]
    rw [e1, e2]
    exact Validate_congr_credentials m login2 password2 hl hp

theorem checkResponse_clear (response : Response) (he : response.Error = "")
    (hc : response.ErrorCode = 0) :
    checkResponse response =
      match response.Phones.find? (fun phone => decide (goLen phone.Error ≠ 0)) with
      | some phone => ({}, some phone.Error)
      | none => (response, none) := by
  have h : ¬ (goLen response.Error > 0 ∨ response.ErrorCode > 0) := by
    rw [he, hc]; decide
  unfold checkResponse
  rw [if_neg h]

theorem sender_not_key (m : Message) (h : m.Sender = "") : "sender" ∉ jsonKeys m := by
  simp [jsonKeys, jsonMembers, jsonFields, isEmptyValue, h]

theorem fillCredentials_Sender (c : Client) (m : Message) :
    (fillCredentials c m).Sender = m.Sender := by
  unfold fillCredentials
  split_ifs <;> rfl

/-- The caller's message after `SendMessage` is the redacted message or the
message with the credentials filled in. -/
theorem SendMessage_message (env : Env) (c : Client) (m : Message) :
    (SendMessage env c (some m)).message = some (redact m) ∨
    (SendMessage env c (some m)).message = some (fillCredentials c m) := by
  cases hv : Validate (fillCredentials c m) with
  | error e => left; rw [SendMessage_invalid env c m e hv]
  | ok u =>
    right
    simp only [SendMessage, hv]
    repeat' split
    all_goals rfl

theorem jsonMembers_required (L P ph mes lst : String) :
    jsonMembers { Login := L, Password := P, Phones := ph, Message := mes, List := lst } =
      [("login", .str L), ("psw", .str P)] ++
      (if ph = "" then [] else [("phones", .str ph)]) ++
      (if mes = "" then [] else [("mes", .str mes)]) ++
      (if lst = "" then [] else [("list", .str lst)]) := by
  by_cases h1 : ph = "" <;> by_cases h2 : mes = "" <;> by_cases h3 : lst = "" <;>
    simp [jsonMembers, jsonFields, isEmptyValue, List.filter, h1, h2, h3]

theorem key_login : appendString "login" ++ ":" = "\"login\":" := by decide
theorem key_psw : appendString "psw" ++ ":" = "\"psw\":" := by decide
theorem key_phones : appendString "phones" ++ ":" = "\"phones\":" := by decide
theorem key_mes : appendString "mes" ++ ":" = "\"mes\":" := by decide
theorem key_list : appendString "list" ++ ":" = "\"list\":" := by decide


/-! ## The claims -/

/-- C1. For a message whose text is at most 1000 bytes long,
`validateRequiredFields` succeeds exactly when login and password are both
non-empty and either the list is non-empty or both phones and text are: the
two chained checks amount to the disjunction "(phones and message) or list". -/
theorem C1_required_fields_iff (m : Message) (hlen : goLen m.Message ≤ 1000) :
    validateRequiredFields m = .ok () ↔
      (m.Login ≠ "" ∧ m.Password ≠ "" ∧
        (m.List ≠ "" ∨ (m.Phones ≠ "" ∧ m.Message ≠ ""))) := by
  unfold validateRequiredFields
  have hlen2 : ¬ goLen m.Message > 1000 := by omega
  split_ifs <;> simp_all
  all_goals tauto

theorem C1_required_fields_iff_witness :
    goLen sampleMessage.Message ≤ 1000 ∧
    (validateRequiredFields sampleMessage = .ok () ↔
      (sampleMessage.Login ≠ "" ∧ sampleMessage.Password ≠ "" ∧
        (sampleMessage.List ≠ "" ∨
          (sampleMessage.Phones ≠ "" ∧ sampleMessage.Message ≠ "")))) :=
  ⟨by decide, C1_required_fields_iff sampleMessage (by decide)⟩

/-- C2. When login or password is empty, `Validate` fails with the
login-and-password error wrapped as a message-validation error, whatever the
other fields hold. -/
theorem C2_missing_credentials_first (m : Message) (h : m.Login = "" ∨ m.Password = "") :
    Validate m = .error (wrapRequired errLoginPassword) := by
  simp [Validate, validateRequiredFields, h]

theorem C2_missing_credentials_first_witness :
    Validate { Password := "P", Phones := "1", Message := "hi", Cost := 7, Valid := "99",
               Voice := "x", Call := -1 } = .error (wrapRequired errLoginPassword) :=
  C2_missing_credentials_first _ (Or.inl rfl)

/-- C3 (failing input). A text of 1000 Cyrillic letters has 1000 characters,
yet `Validate` rejects the message with the text-too-long error: the check
counts the 2000 bytes of the text. -/
theorem C3_thousand_cyrillic_letters_rejected :
    (repeatChar 'я' 1000).length = 1000 ∧
    Validate { sampleMessage with Message := repeatChar 'я' 1000 } =
      .error (wrapRequired errMessageTooLong) := by
  have h1 : goLen (repeatChar 'я' 1000) = 2000 := by
    rw [goLen_repeatChar]; decide
  have h2 : repeatChar 'я' 1000 ≠ "" := repeatChar_ne_empty _ _ (by omega)
  refine ⟨length_repeatChar _ _, ?_⟩
  simp [Validate, validateRequiredFields, h1, h2, sampleMessage]

/-- C4. For a message that passes the required-field checks and has `time`
empty, `valid` empty and `period` zero, `Validate` succeeds exactly when every
validated optional field is in its range, and its result does not change with
the fields it never reads. -/
theorem C4_optional_fields_iff (m : Message) (hreq : validateRequiredFields m = .ok ())
    (ht : m.Time = "") (hv : m.Valid = "") (hp : m.Period = Float64.finite 0) :
    (Validate m = .ok () ↔
      (0 ≤ m.Cost ∧ m.Cost ≤ 3) ∧ (0 ≤ m.Format ∧ m.Format ≤ 3) ∧ 0 ≤ m.MaxSMS ∧
      (-12 ≤ m.TZ ∧ m.TZ ≤ 12) ∧ (m.Freq = 0 ∨ (1 ≤ m.Freq ∧ m.Freq ≤ 1440)) ∧
      (0 ≤ m.Flash ∧ m.Flash ≤ 1) ∧ (0 ≤ m.Bin ∧ m.Bin ≤ 2) ∧ (0 ≤ m.Push ∧ m.Push ≤ 1) ∧
      (0 ≤ m.HLR ∧ m.HLR ≤ 1) ∧ (0 ≤ m.Ping ∧ m.Ping ≤ 1) ∧
      (0 ≤ m.MMS ∧ m.MMS ≤ 1) ∧ (0 ≤ m.Mail ∧ m.Mail ≤ 1) ∧ (0 ≤ m.Soc ∧ m.Soc ≤ 1) ∧
      (0 ≤ m.Viber ∧ m.Viber ≤ 1) ∧ (0 ≤ m.WhatsApp ∧ m.WhatsApp ≤ 1) ∧
      (m.SMSReq = 0 ∨ (10 ≤ m.SMSReq ∧ m.SMSReq ≤ 999)) ∧
      (m.FileURL = "" ∨ 101 ≤ goLen m.FileURL) ∧
      (0 ≤ m.Call ∧ m.Call ≤ 1) ∧
      (m.Voice = "" ∨ m.Voice ∈ ["m", "m2", "m3", "m4", "w", "w2", "w3", "w4"]) ∧
      (m.Param = "" ∨ ThreeNumbers m.Param)) ∧
    (∀ (id sender : String) (translit tinyurl : Int) (bot subj charset imgcode userip : String)
        (err op : Int) (pp : String),
      Validate { m with ID := id, Sender := sender, Translit := translit, TinyURL := tinyurl,
                        Bot := bot, Subject := subj, Charset := charset, ImgCode := imgcode,
                        UserIP := userip, Err := err, Op := op, PP := pp } = Validate m) := by
  refine ⟨?_, fun _ _ _ _ _ _ _ _ _ _ _ _ => rfl⟩
  have hparam : isValidParam m.Param = false ↔ ¬ ThreeNumbers m.Param := by
    rw [← isValidParam_iff]; simp
  have hfile : goLen m.FileURL < 101 ↔ ¬ 101 ≤ goLen m.FileURL := by omega
  unfold Validate
  rw [hreq]
  simp only [ht, hv, hp, periodOutOfRange_zero, ne_eq, not_true_eq_false, ↓reduceIte, false_and,
    Bool.false_eq_true, ite_error_ok, isValidVoice, hparam, hfile, decide_eq_false_iff_not,
    and_true]
  repeat' apply and_congr
  all_goals first | omega | tauto

theorem C4_optional_fields_iff_witness :
    validateRequiredFields { sampleMessage with Cost := 4 } = .ok () ∧
    Validate { sampleMessage with Cost := 4 } ≠ .ok () :=
  ⟨by decide, fun h =>
    absurd ((C4_optional_fields_iff { sampleMessage with Cost := 4 } (by decide) rfl rfl rfl).1.1
      h).1.2 (by decide)⟩

/-- C5 (failing input). The lifetime "24:00" has the form HH:MM with hour 24
and minute 0, and the message is valid without it, yet `Validate` rejects it:
`time.Parse` refuses hour 24 before the comparison with 24 is reached. -/
theorem C5_valid_24_00_rejected :
    hourMinuteForm "24:00" = true ∧
    Validate { sampleMessage with Valid := "" } = .ok () ∧
    Validate { sampleMessage with Valid := "24:00" } = .error (wrapValid errValidFormat) := by
  decide

/-- C6. For a message that passes the required-field checks with `time` empty
and `cost` and `fmt` in range, a non-empty `valid` that is not one or two
digits, a colon and two digits makes `Validate` fail with the format error of
the first check; and no message with `valid` equal to "0" passes `Validate`. -/
theorem C6_valid_pattern_error (m : Message) :
    (validateRequiredFields m = .ok () → m.Time = "" → (0 ≤ m.Cost ∧ m.Cost ≤ 3) →
      (0 ≤ m.Format ∧ m.Format ≤ 3) → m.Valid ≠ "" → hourMinuteForm m.Valid = false →
      Validate m = .error errValidPattern) ∧
    (m.Valid = "0" → Validate m ≠ .ok ()) := by
  constructor
  · intro hreq ht hc hf hne hform
    have c1 : ¬ (m.Cost ≠ 0 ∧ (m.Cost < 0 ∨ m.Cost > 3)) := by omega
    have c2 : ¬ (m.Format ≠ 0 ∧ (m.Format < 0 ∨ m.Format > 3)) := by omega
    have c3 : m.Valid ≠ "" ∧ MatchString validRegex m.Valid = false :=
      ⟨hne, by rw [MatchString_validRegex]; exact hform⟩
    unfold Validate
    rw [hreq]
    simp only [ht, ne_eq, not_true_eq_false, ↓reduceIte]
    rw [if_neg c1, if_neg c2, if_pos c3]
  · intro h0 hok
    have c3 : m.Valid ≠ "" ∧ MatchString validRegex m.Valid = false := by
      rw [h0]; decide
    unfold Validate at hok
    cases hR : validateRequiredFields m with
    | error e => rw [hR] at hok; simp at hok
    | ok u =>
      rw [hR] at hok
      simp only at hok
      cases hT : (if m.Time ≠ "" then validateTime m.Time else Except.ok ()) with
      | error e => rw [hT] at hok; simp at hok
      | ok v =>
        rw [hT] at hok
        simp only [ite_error_ok] at hok
        exact hok.2.2.1 c3

theorem C6_valid_pattern_error_witness :
    Validate { sampleMessage with Valid := "0" } = .error errValidPattern :=
  (C6_valid_pattern_error { sampleMessage with Valid := "0" }).1 (by decide) rfl (by decide)
    (by decide) (by decide) (by decide)

/-- C7. For a message that is valid apart from `valid`, a `valid` of two
digits, a colon and two digits with an hour above 24 passes the pattern of the
first check, and `Validate` fails at the second check with the lifetime-value
error of `Validate` (wrapping the parse failure of `validateValid`), a text
different from the format error of the first check. -/
theorem C7_hour_above_24 (m : Message) (h1 h2 a b : Char)
    (hh1 : isDigitChar h1 = true) (hh2 : isDigitChar h2 = true)
    (ha : isDigitChar a = true) (hb : isDigitChar b = true)
    (hval : m.Valid = String.mk [h1, h2, ':', a, b])
    (hhour : 24 < GoTime.digitVal h1 * 10 + GoTime.digitVal h2)
    (hother : Validate { m with Valid := "" } = .ok ()) :
    MatchString validRegex m.Valid = true ∧
    Validate m = .error (wrapValid errValidFormat) ∧
    wrapValid errValidFormat ≠ errValidPattern := by
  have hre : MatchString validRegex m.Valid = true := by
    rw [hval, MatchString, validRegex_rmatch]
    exact Or.inr ⟨h1, h2, a, b, hh1, hh2, ha, hb, rfl⟩
  have hne : m.Valid ≠ "" := by
    rw [hval]
    intro e
    have : (5 : Nat) = 0 := congrArg String.length e
    omega
  have hr : 24 ≤ GoTime.digitVal h1 * 10 + GoTime.digitVal h2 := by omega
  refine ⟨hre, ?_, by decide⟩
  rw [Validate_eq_validOutcome m hother, validOutcome]
  have c : ¬ (m.Valid ≠ "" ∧ MatchString validRegex m.Valid = false) := by simp [hre]
  rw [if_neg c, if_pos hne, hval, validateValid_two h1 h2 a b hh1 hh2 ha hb, if_pos hr]

theorem C7_hour_above_24_witness :
    Validate { sampleMessage with Valid := "25:00" } = .error (wrapValid errValidFormat) :=
  (C7_hour_above_24 { sampleMessage with Valid := "25:00" } '2' '5' '0' '0' (by decide)
    (by decide) (by decide) (by decide) rfl (by decide) (by decide)).2.1

/-- C8 (counterexample). The documented examples "9912312359", "15-17",
"30ts" and "+100" each have one of the five documented forms, and
`validateTime` rejects each of them; `Validate` reports the send-time error
for the first. -/
theorem C8_documented_examples_rejected :
    (documentedTimeForm "9912312359" = true ∧
      validateTime "9912312359" = .error errTimeFormat) ∧
    (documentedTimeForm "15-17" = true ∧ validateTime "15-17" = .error errTimeFormat) ∧
    (documentedTimeForm "30ts" = true ∧ validateTime "30ts" = .error errTimeFormat) ∧
    (documentedTimeForm "+100" = true ∧ validateTime "+100" = .error errTimeFormat) ∧
    Validate { sampleMessage with Time := "9912312359" } =
      .error (wrapTime errTimeFormat) := by
  decide

/-- C8 (amended). `validateTime` accepts every string `DDMMYYHHmm` and every
string `DD.MM.YY HH:MM` whose digits give a month from 1 to 12, a day that
exists in that month of that year, an hour from 0 to 23 and a minute from 0 to
59; `Validate` reports no send-time error for a message with such a time. -/
theorem C8_valid_date_times_accepted (d1 d2 m1 m2 y1 y2 h1 h2 n1 n2 : Char)
    (hv : validDateTime d1 d2 m1 m2 y1 y2 h1 h2 n1 n2 = true) (m : Message)
    (hm : m.Time = compactDateTime d1 d2 m1 m2 y1 y2 h1 h2 n1 n2 ∨
      m.Time = dottedDateTime d1 d2 m1 m2 y1 y2 h1 h2 n1 n2) :
    validateTime m.Time = .ok () ∧ ¬ isSendTimeError (Validate m) := by
  have h := validateTime_of_validDateTime d1 d2 m1 m2 y1 y2 h1 h2 n1 n2 hv
  have ht : validateTime m.Time = .ok () := by
    rcases hm with e | e
    · rw [e]; exact h.1
    · rw [e]; exact h.2
  exact ⟨ht, Validate_not_sendTime m ht⟩

theorem C8_valid_date_times_accepted_witness :
    validDateTime '3' '1' '1' '2' '9' '9' '2' '3' '5' '9' = true ∧
    validateTime "31.12.99 23:59" = .ok () ∧
    ¬ isSendTimeError (Validate { sampleMessage with Time := "31.12.99 23:59" }) :=
  ⟨by decide,
    C8_valid_date_times_accepted '3' '1' '1' '2' '9' '9' '2' '3' '5' '9' (by decide)
      { sampleMessage with Time := "31.12.99 23:59" } (Or.inr rfl)⟩

/-- C9 (failing input). The send time "9-127" has none of the five documented
forms, the message passes the required-field checks, and yet `validateTime`
accepts it (as hour 9, month 12 and a literal 7) and `Validate` succeeds;
"hello" is rejected. -/
theorem C9_undocumented_time_accepted :
    documentedTimeForm "9-127" = false ∧
    validateRequiredFields { sampleMessage with Time := "9-127" } = .ok () ∧
    validateTime "9-127" = .ok () ∧
    Validate { sampleMessage with Time := "9-127" } = .ok () ∧
    Validate { sampleMessage with Time := "hello" } = .error (wrapTime errTimeFormat) := by
  decide

/-- C10. For a client made by `NewClient` with non-empty login and password,
and a message with no login, no password, non-empty phones, a non-empty text of
at most 1000 bytes and every other field unset, the credential step leaves the
message with the client's login and password, and `Validate` accepts it. -/
theorem C10_fill_then_validate (L P S phones text : String) (hL : L ≠ "") (hP : P ≠ "")
    (hph : phones ≠ "") (htx : text ≠ "") (hlen : goLen text ≤ 1000) :
    (fillCredentials (NewClient L P S) { Phones := phones, Message := text }).Login = L ∧
    (fillCredentials (NewClient L P S) { Phones := phones, Message := text }).Password = P ∧
    Validate (fillCredentials (NewClient L P S) { Phones := phones, Message := text })
      = .ok () := by
  have hlen2 : ¬ (1000 < goLen text) := by omega
  simp [fillCredentials, NewClient, Validate, validateRequiredFields,
    periodOutOfRange_zero, hL, hP, hph, htx, hlen2]

theorem C10_fill_then_validate_witness :
    (fillCredentials (NewClient "L" "P" "S")
      { Phones := "+71234567890", Message := "hi" }).Login = "L" ∧
    (fillCredentials (NewClient "L" "P" "S")
      { Phones := "+71234567890", Message := "hi" }).Password = "P" ∧
    Validate (fillCredentials (NewClient "L" "P" "S")
      { Phones := "+71234567890", Message := "hi" }) = .ok () :=
  C10_fill_then_validate "L" "P" "S" "+71234567890" "hi" (by decide) (by decide) (by decide)
    (by decide) (by decide)

/-- C11. Take two runs of `SendMessage` on messages that differ at most in
login and password, with clients that differ at most in their credentials,
each credential empty in both runs or in neither.  When validation fails in
the first run, both runs return the same error text, and that text is made of
the validation error and of the JSON text of the redacted message: a text that
starts with the two placeholders as login and password (always so when the
period is finite), or is empty when `JSON` failed. -/
theorem C11_same_text_without_credentials (env : Env) (c1 c2 : Client) (m : Message)
    (login2 password2 : String)
    (hl : m.Login = "" ↔ login2 = "") (hp : m.Password = "" ↔ password2 = "")
    (hcl : c1.login = "" ↔ c2.login = "") (hcp : c1.password = "" ↔ c2.password = "")
    (e : String) (hfail : Validate (fillCredentials c1 m) = .error e) :
    (SendMessage env c2 (some { m with Login := login2, Password := password2 })).err =
      (SendMessage env c1 (some m)).err ∧
    (SendMessage env c1 (some m)).err =
      some (wrapValidation (jsonOrEmpty env.formatFloat (redact m)) e) ∧
    (jsonOrEmpty env.formatFloat (redact m) = "" ∨
      ∃ tail, jsonOrEmpty env.formatFloat (redact m) = redactedHead ++ tail) ∧
    (∀ q, m.Period = Float64.finite q →
      ∃ tail, jsonOrEmpty env.formatFloat (redact m) = redactedHead ++ tail) := by
  have hfail2 : Validate (fillCredentials c2 { m with Login := login2, Password := password2 })
      = .error e := by
    rw [Validate_fill_congr c1 c2 m login2 password2 hl hp hcl hcp]; exact hfail
  have r1 := SendMessage_invalid env c1 m e hfail
  have r2 := SendMessage_invalid env c2 { m with Login := login2, Password := password2 } e
    hfail2
  have hred : redact { m with Login := login2, Password := password2 } = redact m := rfl
  rw [hred] at r2
  refine ⟨by rw [r1, r2], by rw [r1], ?_, ?_⟩
  · unfold jsonOrEmpty
    cases hj : JSON env.formatFloat (redact m) with
    | error x => exact Or.inl rfl
    | ok text => exact Or.inr (JSON_redact_head env.formatFloat m text hj)
  · intro q hq
    obtain ⟨text, hj⟩ := JSON_ok_of_finite env.formatFloat (redact m) q hq
    unfold jsonOrEmpty
    rw [hj]
    exact JSON_redact_head env.formatFloat m text hj

theorem C11_same_text_without_credentials_witness :
    (SendMessage (fixedEnv 200 "x" {}) (NewClient "other" "secret" "S")
        (some { sampleRequest with Cost := 9 })).err =
      (SendMessage (fixedEnv 200 "x" {}) sampleClient (some { sampleRequest with Cost := 9 })).err :=
  (C11_same_text_without_credentials (fixedEnv 200 "x" {}) sampleClient
    (NewClient "other" "secret" "S") { sampleRequest with Cost := 9 } "" "" (by decide)
    (by decide) (by decide) (by decide) "неверное значение стоимости" (by decide)).1

/-- C12 (counterexample). A decoded envelope with an empty error string, the
error code -1 and no recipient entry: `SendMessage` succeeds and returns it. -/
theorem C12_negative_code_succeeds :
    (SendMessage (fixedEnv 200 "x" { ErrorCode := -1 }) sampleClient (some sampleRequest)).err
      = none ∧
    (SendMessage (fixedEnv 200 "x" { ErrorCode := -1 }) sampleClient
      (some sampleRequest)).response = { ErrorCode := -1 } := by
  decide

/-- C12 (amended). For a decoded envelope whose top-level error string is
non-empty or whose error code is positive, `SendMessage` fails with an error
whose text is the error string of the envelope, and returns the zero
response, whatever the recipient entries are. -/
theorem C12_top_level_error (env : Env) (c : Client) (m : Message) (jsonData body : String)
    (response : Response) (hv : Validate (fillCredentials c m) = .ok ())
    (hj : JSON env.formatFloat (fillCredentials c m) = .ok jsonData)
    (hr : env.roundTrip jsonData = .ok (200, body)) (hb : body ≠ "")
    (hu : env.unmarshal body = .ok response)
    (herr : response.Error ≠ "" ∨ response.ErrorCode > 0) :
    (SendMessage env c (some m)).err = some response.Error ∧
    (SendMessage env c (some m)).response = {} := by
  have h : goLen response.Error > 0 ∨ response.ErrorCode > 0 := by
    rcases herr with h | h
    · left
      have := (goLen_eq_zero response.Error).not.2 h
      omega
    · right; exact h
  rw [SendMessage_decoded env c m jsonData body response hv hj hr hb hu]
  unfold checkResponse
  rw [if_pos h]
  exact ⟨rfl, rfl⟩

theorem C12_top_level_error_witness :
    (SendMessage (fixedEnv 200 "x" { Error := "bad login", ErrorCode := 2 }) sampleClient
      (some sampleRequest)).err = some "bad login" :=
  (C12_top_level_error (fixedEnv 200 "x" { Error := "bad login", ErrorCode := 2 }) sampleClient
    sampleRequest
    "\x7b\"login\":\"L\",\"psw\":\"P\",\"phones\":\"+71234567890\",\"mes\":\"hi\"\x7d" "x"
    { Error := "bad login", ErrorCode := 2 } (by decide) (by decide) rfl (by decide) rfl
    (Or.inl (by decide))).1

/-- C13 (failing input). For the envelope with error "bad login" and error
code 2, `SendMessage` returns the error text "bad login" and the zero
response: the error code of its result is 0, for which `ParseErrorCode` gives
the empty string and not the description of code 2. -/
theorem C13_error_code_lost :
    (SendMessage (fixedEnv 200 "\x7b\"error\":\"bad login\",\"error_code\":2\x7d"
        { Error := "bad login", ErrorCode := 2 }) sampleClient (some sampleRequest)).err
      = some "bad login" ∧
    (SendMessage (fixedEnv 200 "\x7b\"error\":\"bad login\",\"error_code\":2\x7d"
        { Error := "bad login", ErrorCode := 2 }) sampleClient (some sampleRequest)).response
      = {} ∧
    ParseErrorCode (SendMessage (fixedEnv 200
        "\x7b\"error\":\"bad login\",\"error_code\":2\x7d"
        { Error := "bad login", ErrorCode := 2 }) sampleClient
        (some sampleRequest)).response.ErrorCode = "" ∧
    ParseErrorCode 2 = "Неверный логин или пароль" := by
  decide

/-- C14. For a decoded envelope with an empty top-level error string and error
code zero in which some recipient entry has a non-empty error string,
`SendMessage` fails with the error string of the first such entry. -/
theorem C14_first_recipient_error (env : Env) (c : Client) (m : Message)
    (jsonData body : String) (response : Response)
    (hv : Validate (fillCredentials c m) = .ok ())
    (hj : JSON env.formatFloat (fillCredentials c m) = .ok jsonData)
    (hr : env.roundTrip jsonData = .ok (200, body)) (hb : body ≠ "")
    (hu : env.unmarshal body = .ok response)
    (he : response.Error = "") (hc : response.ErrorCode = 0)
    (hex : ∃ p ∈ response.Phones, p.Error ≠ "") :
    ∃ before first after, response.Phones = before ++ first :: after ∧
      (∀ q ∈ before, q.Error = "") ∧ first.Error ≠ "" ∧
      (SendMessage env c (some m)).err = some first.Error ∧
      (SendMessage env c (some m)).response = {} := by
  rw [SendMessage_decoded env c m jsonData body response hv hj hr hb hu,
    checkResponse_clear response he hc]
  cases hf : response.Phones.find? (fun phone => decide (goLen phone.Error ≠ 0)) with
  | none =>
    obtain ⟨p, hp, hne⟩ := hex
    have := List.find?_eq_none.1 hf p hp
    simp only [decide_eq_true_eq, not_not, goLen_eq_zero] at this
    exact absurd this hne
  | some first =>
    obtain ⟨hfirst, before, after, hsplit, hbefore⟩ := List.find?_eq_some.1 hf
    refine ⟨before, first, after, hsplit, ?_, ?_, rfl, rfl⟩
    · intro q hq
      have := hbefore q hq
      simpa [goLen_eq_zero] using this
    · simpa [goLen_eq_zero] using hfirst

theorem C14_first_recipient_error_witness :
    ∃ before first after,
      [({ Phone := "1" } : PhoneStatus), { Phone := "2", Error := "e2" },
        { Phone := "3", Error := "e3" }] = before ++ first :: after ∧
      (∀ q ∈ before, q.Error = "") ∧ first.Error ≠ "" ∧
      (SendMessage (fixedEnv 200 "x" { Phones := [{ Phone := "1" },
        { Phone := "2", Error := "e2" }, { Phone := "3", Error := "e3" }] }) sampleClient
        (some sampleRequest)).err = some first.Error ∧
      (SendMessage (fixedEnv 200 "x" { Phones := [{ Phone := "1" },
        { Phone := "2", Error := "e2" }, { Phone := "3", Error := "e3" }] }) sampleClient
        (some sampleRequest)).response = {} :=
  C14_first_recipient_error (fixedEnv 200 "x" { Phones := [{ Phone := "1" },
      { Phone := "2", Error := "e2" }, { Phone := "3", Error := "e3" }] }) sampleClient
    sampleRequest
    "\x7b\"login\":\"L\",\"psw\":\"P\",\"phones\":\"+71234567890\",\"mes\":\"hi\"\x7d" "x"
    { Phones := [{ Phone := "1" }, { Phone := "2", Error := "e2" },
      { Phone := "3", Error := "e3" }] }
    (by decide) (by decide) rfl (by decide) rfl rfl rfl
    ⟨{ Phone := "3", Error := "e3" }, by decide, by decide⟩

/-- C15. For a decoded envelope with an empty top-level error string, error
code zero and no recipient entry with an error string, `SendMessage` succeeds
and returns the envelope as it was decoded. -/
theorem C15_success_returns_envelope (env : Env) (c : Client) (m : Message)
    (jsonData body : String) (response : Response)
    (hv : Validate (fillCredentials c m) = .ok ())
    (hj : JSON env.formatFloat (fillCredentials c m) = .ok jsonData)
    (hr : env.roundTrip jsonData = .ok (200, body)) (hb : body ≠ "")
    (hu : env.unmarshal body = .ok response)
    (he : response.Error = "") (hc : response.ErrorCode = 0)
    (hph : ∀ p ∈ response.Phones, p.Error = "") :
    (SendMessage env c (some m)).err = none ∧
    (SendMessage env c (some m)).response = response := by
  have hf : response.Phones.find? (fun phone => decide (goLen phone.Error ≠ 0)) = none := by
    rw [List.find?_eq_none]
    intro p hp
    simp [goLen_eq_zero, hph p hp]
  rw [SendMessage_decoded env c m jsonData body response hv hj hr hb hu,
    checkResponse_clear response he hc, hf]
  exact ⟨rfl, rfl⟩

theorem C15_success_returns_envelope_witness :
    (SendMessage (fixedEnv 200
        "\x7b\"id\":1,\"cnt\":1,\"cost\":\"1.00\",\"balance\":\"99.00\"\x7d"
        { ID := 1, Cnt := 1, Cost := "1.00", Balance := "99.00" }) sampleClient
      (some sampleRequest)).err = none ∧
    (SendMessage (fixedEnv 200
        "\x7b\"id\":1,\"cnt\":1,\"cost\":\"1.00\",\"balance\":\"99.00\"\x7d"
        { ID := 1, Cnt := 1, Cost := "1.00", Balance := "99.00" }) sampleClient
      (some sampleRequest)).response =
        { ID := 1, Cnt := 1, Cost := "1.00", Balance := "99.00" } :=
  C15_success_returns_envelope (fixedEnv 200
      "\x7b\"id\":1,\"cnt\":1,\"cost\":\"1.00\",\"balance\":\"99.00\"\x7d"
      { ID := 1, Cnt := 1, Cost := "1.00", Balance := "99.00" }) sampleClient sampleRequest
    "\x7b\"login\":\"L\",\"psw\":\"P\",\"phones\":\"+71234567890\",\"mes\":\"hi\"\x7d"
    "\x7b\"id\":1,\"cnt\":1,\"cost\":\"1.00\",\"balance\":\"99.00\"\x7d"
    { ID := 1, Cnt := 1, Cost := "1.00", Balance := "99.00" }
    (by decide) (by decide) rfl (by decide) rfl rfl rfl (by decide)

/-- C16 (counterexample). The gateway answers with status 500 and an empty
body: `SendMessage` fails with the empty-response error, not with the
bad-status error carrying 500. -/
theorem C16_empty_body_with_status_500 :
    (SendMessage (fixedEnv 500 "" {}) sampleClient (some sampleRequest)).err
      = some errEmptyResponse ∧
    errEmptyResponse ≠ errBadStatus 500 := by
  decide

/-- C16 (amended). For every reply of the gateway, a pair of a status code and
a body: when the body is empty `SendMessage` fails with the empty-response
error, whatever the status code; when the body is not empty and the status
code is not 200 it fails with the bad-status error carrying that code.  The
response returned is the zero response in both cases. -/
theorem C16_empty_body_then_status (env : Env) (c : Client) (m : Message)
    (jsonData body : String) (statusCode : Int)
    (hv : Validate (fillCredentials c m) = .ok ())
    (hj : JSON env.formatFloat (fillCredentials c m) = .ok jsonData)
    (hr : env.roundTrip jsonData = .ok (statusCode, body)) :
    (body = "" → (SendMessage env c (some m)).err = some errEmptyResponse ∧
      (SendMessage env c (some m)).response = {}) ∧
    (body ≠ "" → statusCode ≠ 200 →
      (SendMessage env c (some m)).err = some (errBadStatus statusCode) ∧
      (SendMessage env c (some m)).response = {}) := by
  rw [SendMessage_reply env c m jsonData body statusCode hv hj hr]
  constructor
  · intro hb
    rw [if_pos ((goLen_eq_zero body).2 hb)]
    exact ⟨rfl, rfl⟩
  · intro hb hs
    rw [if_neg (fun h => hb ((goLen_eq_zero body).1 h)), if_pos hs]
    exact ⟨rfl, rfl⟩

theorem C16_empty_body_then_status_witness :
    (SendMessage (fixedEnv 404 "not found" {}) sampleClient (some sampleRequest)).err
      = some (errBadStatus 404) ∧
    (SendMessage (fixedEnv 404 "not found" {}) sampleClient (some sampleRequest)).response
      = {} :=
  (C16_empty_body_then_status (fixedEnv 404 "not found" {}) sampleClient sampleRequest
    "\x7b\"login\":\"L\",\"psw\":\"P\",\"phones\":\"+71234567890\",\"mes\":\"hi\"\x7d"
    "not found" 404 (by decide) (by decide) rfl).2 (by decide) (by decide)

/-- C17. For a message with login, password, phones and text set and every
other field zero, `JSON` writes an object with exactly the keys login, psw,
phones and mes; with login, password and list set, exactly login, psw and
list: no optional key is written. -/
theorem C17_required_keys_only (formatFloat : ℚ → String) (L P ph mes lst : String) :
    (ph ≠ "" → mes ≠ "" →
      jsonKeys { Login := L, Password := P, Phones := ph, Message := mes } =
        ["login", "psw", "phones", "mes"] ∧
      JSON formatFloat { Login := L, Password := P, Phones := ph, Message := mes } =
        .ok ("\x7b" ++ joinMembers ["\"login\":" ++ appendString L, "\"psw\":" ++ appendString P,
          "\"phones\":" ++ appendString ph, "\"mes\":" ++ appendString mes] ++ "\x7d")) ∧
    (lst ≠ "" →
      jsonKeys { Login := L, Password := P, List := lst } = ["login", "psw", "list"] ∧
      JSON formatFloat { Login := L, Password := P, List := lst } =
        .ok ("\x7b" ++ joinMembers ["\"login\":" ++ appendString L, "\"psw\":" ++ appendString P,
          "\"list\":" ++ appendString lst] ++ "\x7d")) := by
  constructor
  · intro h1 h2
    have hm := jsonMembers_required L P ph mes ""
    simp only [h1, h2, if_false, if_true, List.append_nil, List.cons_append, List.nil_append]
      at hm
    constructor
    · simp only [jsonKeys]
      rw [hm]; rfl
    · simp only [JSON]
      rw [hm]
      simp only [encodeMembers, encodeValue, key_login, key_psw, key_phones, key_mes]
  · intro h3
    have hm := jsonMembers_required L P "" "" lst
    simp only [h3, if_false, if_true, List.append_nil, List.cons_append, List.nil_append]
      at hm
    constructor
    · simp only [jsonKeys]
      rw [hm]; rfl
    · simp only [JSON]
      rw [hm]
      simp only [encodeMembers, encodeValue, key_login, key_psw, key_list]

theorem C17_required_keys_only_witness :
    jsonKeys sampleMessage = ["login", "psw", "phones", "mes"] ∧
    JSON (fun _ => "0") sampleMessage =
      .ok "\x7b\"login\":\"L\",\"psw\":\"P\",\"phones\":\"+71234567890\",\"mes\":\"hi\"\x7d" :=
  (C17_required_keys_only (fun _ => "0") "L" "P" "+71234567890" "hi" "").1 (by decide)
    (by decide)

/-- C18. For a message in which exactly one of login and password is empty,
the credential step changes nothing, validation fails with the
login-and-password error, and `SendMessage` returns that error wrapped as a
validation failure, whatever the credentials of the client are. -/
theorem C18_one_credential_missing (env : Env) (c : Client) (m : Message)
    (h : (m.Login = "" ∧ m.Password ≠ "") ∨ (m.Login ≠ "" ∧ m.Password = "")) :
    fillCredentials c m = m ∧
    Validate (fillCredentials c m) = .error (wrapRequired errLoginPassword) ∧
    (SendMessage env c (some m)).err =
      some (wrapValidation (jsonOrEmpty env.formatFloat (redact m))
        (wrapRequired errLoginPassword)) := by
  have hn : ¬ (m.Login = "" ∧ m.Password = "") := by
    rcases h with ⟨_, h2⟩ | ⟨h1, _⟩
    · exact fun hb => h2 hb.2
    · exact fun hb => h1 hb.1
  have hf : fillCredentials c m = m := by
    unfold fillCredentials; rw [if_neg hn]
  have ho : m.Login = "" ∨ m.Password = "" := by
    rcases h with ⟨h1, _⟩ | ⟨_, h2⟩
    · exact Or.inl h1
    · exact Or.inr h2
  have hv : Validate (fillCredentials c m) = .error (wrapRequired errLoginPassword) := by
    rw [hf]; simp [Validate, validateRequiredFields, ho]
  refine ⟨hf, hv, ?_⟩
  rw [SendMessage_invalid env c m _ hv]

theorem C18_one_credential_missing_witness :
    fillCredentials sampleClient { sampleRequest with Login := "me" } =
      { sampleRequest with Login := "me" } ∧
    Validate (fillCredentials sampleClient { sampleRequest with Login := "me" }) =
      .error (wrapRequired errLoginPassword) ∧
    (SendMessage (fixedEnv 200 "x" {}) sampleClient
        (some { sampleRequest with Login := "me" })).err =
      some (wrapValidation (jsonOrEmpty (fun _ => "0")
        (redact { sampleRequest with Login := "me" })) (wrapRequired errLoginPassword)) :=
  C18_one_credential_missing (fixedEnv 200 "x" {}) sampleClient
    { sampleRequest with Login := "me" } (Or.inr ⟨by decide, rfl⟩)

/-- C19. When validation fails in `SendMessage`, the caller's message is left
with the two placeholders as login and password, and the credential step of
any later call leaves that message as it is. -/
theorem C19_placeholders_left_in_message (env : Env) (c : Client) (m : Message)
    (hfail : Validate (fillCredentials c m) ≠ .ok ()) :
    ∃ left, (SendMessage env c (some m)).message = some left ∧
      left.Login = placeholderLogin ∧ left.Password = placeholderPassword ∧
      ∀ later : Client, fillCredentials later left = left := by
  cases hv : Validate (fillCredentials c m) with
  | ok u => exact absurd hv hfail
  | error e =>
    refine ⟨redact m, by rw [SendMessage_invalid env c m e hv], rfl, rfl, ?_⟩
    intro later
    have hn : ¬ ((redact m).Login = "" ∧ (redact m).Password = "") := by
      intro hb
      have hp : placeholderLogin = "" := hb.1
      exact absurd hp (by decide)
    unfold fillCredentials
    rw [if_neg hn]

theorem C19_placeholders_left_in_message_witness :
    ∃ left, (SendMessage (fixedEnv 200 "x" {}) sampleClient
        (some { sampleRequest with Cost := 9 })).message = some left ∧
      left.Login = placeholderLogin ∧ left.Password = placeholderPassword ∧
      ∀ later : Client, fillCredentials later left = left :=
  C19_placeholders_left_in_message (fixedEnv 200 "x" {}) sampleClient
    { sampleRequest with Cost := 9 } (by decide)

/-- C20. `SendMessage` leaves the caller's message equal to the original in
every field but login and password; the message it validates and serializes
has the sender of the original, whatever the sender of the client, and for an
empty sender the JSON object has no `sender` key. -/
theorem C20_only_credentials_change (env : Env) (c : Client) (m : Message) :
    (∃ left, (SendMessage env c (some m)).message = some left ∧
      { left with Login := m.Login, Password := m.Password } = m) ∧
    (fillCredentials c m).Sender = m.Sender ∧
    (m.Sender = "" → "sender" ∉ jsonKeys (fillCredentials c m) ∧
      "sender" ∉ jsonKeys (redact m)) := by
  refine ⟨?_, fillCredentials_Sender c m, ?_⟩
  · rcases SendMessage_message env c m with h | h
    · exact ⟨redact m, h, rfl⟩
    · exact ⟨fillCredentials c m, h, fillCredentials_frame c m⟩
  · intro hs
    exact ⟨sender_not_key _ (by rw [fillCredentials_Sender]; exact hs),
      sender_not_key (redact m) hs⟩

theorem C20_only_credentials_change_witness :
    "sender" ∉ jsonKeys (fillCredentials sampleClient sampleRequest) ∧
    "sender" ∉ jsonKeys (redact sampleRequest) :=
  (C20_only_credentials_change (fixedEnv 200 "x" {}) sampleClient sampleRequest).2.2 rfl

end Smsc
